import Mathlib

/-!
Verification development for the LangGraph tool-using agent
(`src/src/main.ts`).  The data model and operations are shallowly
embedded: JavaScript/JSON values become an inductive `JsValue` (numbers
modelled as rationals), the argument normalizer, the zod input/output
schema validators, the tool executors, the verification-and-execution
gate, the classification step, the router and the driver loop become
executable Lean functions.  External capabilities (the chat model, the
network fetch) are oracle parameters.
-/

namespace AgentModel

/-- Model of a JavaScript / JSON value.  Numbers are modelled as exact
rationals (JavaScript floats round; none of the verified claims depends
on rounding).  `obj` keeps fields in insertion order, as JavaScript
objects do. -/
inductive JsValue where
  | str (s : String)
  | num (q : Rat)
  | bool (b : Bool)
  | null
  | arr (elems : List JsValue)
  | obj (fields : List (String × JsValue))

/-- An argument mapping (a JavaScript plain object / record). -/
abbrev JsObject := List (String × JsValue)

/-- An integer-valued JavaScript number. -/
def jsInt (n : Int) : JsValue := JsValue.num (n : Rat)

def chQuote : Char := ('"')
def chBackslash : Char := ('\\')
def chSlash : Char := ('/')
def chLBrace : Char := ('\x7b')
def chRBrace : Char := ('\x7d')
def chLBracket : Char := ('[')
def chRBracket : Char := (']')
def chComma : Char := (',')
def chColon : Char := (':')
def chMinus : Char := ('-')
def chPlus : Char := ('+')
def chZero : Char := ('0')
def chDot : Char := ('.')
def chLowerE : Char := ('e')
def chUpperE : Char := ('E')

def jsonWhitespace : List Char := [' ', '\t', '\n', '\r']

def jsonSkipWs : List Char → List Char
  | [] => []
  | c :: rest => if jsonWhitespace.contains c then jsonSkipWs rest else c :: rest

def hexVal (c : Char) : Option Nat :=
  if c.isDigit then some (c.toNat - 48)
  else if ('a') ≤ c ∧ c ≤ ('f') then some (c.toNat - 87)
  else if ('A') ≤ c ∧ c ≤ ('F') then some (c.toNat - 55)
  else none

/-- Body of a JSON string literal (after the opening quote), with the
standard escape sequences.  Models the string production of the JSON
grammar accepted by `JSON.parse`. -/
def parseJsonStringBody : Nat → List Char → List Char → Option (String × List Char)
  | 0, _, _ => none
  | _, [], _ => none
  | f + 1, c :: rest, acc =>
    if c = chQuote then some (String.mk acc.reverse, rest)
    else if c = chBackslash then
      match rest with
      | [] => none
      | e :: rest2 =>
        if e = chQuote then parseJsonStringBody f rest2 (chQuote :: acc)
        else if e = chBackslash then parseJsonStringBody f rest2 (chBackslash :: acc)
        else if e = chSlash then parseJsonStringBody f rest2 (chSlash :: acc)
        else if e = ('b') then parseJsonStringBody f rest2 (Char.ofNat 8 :: acc)
        else if e = ('f') then parseJsonStringBody f rest2 (Char.ofNat 12 :: acc)
        else if e = ('n') then parseJsonStringBody f rest2 (Char.ofNat 10 :: acc)
        else if e = ('r') then parseJsonStringBody f rest2 (Char.ofNat 13 :: acc)
        else if e = ('t') then parseJsonStringBody f rest2 (Char.ofNat 9 :: acc)
        else if e = ('u') then
          match rest2 with
          | h1 :: h2 :: h3 :: h4 :: rest3 =>
            match hexVal h1, hexVal h2, hexVal h3, hexVal h4 with
            | some a, some b, some c2, some d =>
              parseJsonStringBody f rest3 (Char.ofNat (((a * 16 + b) * 16 + c2) * 16 + d) :: acc)
            | _, _, _, _ => none
          | _ => none
        else none
    else if c.toNat < 32 then none
    else parseJsonStringBody f rest (c :: acc)

/-- Leading decimal digits of a character list. -/
def takeDigits : List Char → List Char × List Char
  | [] => ([], [])
  | c :: rest =>
    if c.isDigit then
      let p := takeDigits rest
      (c :: p.1, p.2)
    else ([], c :: rest)

def digitsToNat (ds : List Char) : Nat :=
  ds.foldl (fun acc c => acc * 10 + (c.toNat - 48)) 0

/-- The number production of the JSON grammar: optional minus, integer
part without leading zeros, optional fraction, optional exponent.  The
value is the exact rational the digits denote (JavaScript would round to
the nearest float; no verified claim depends on that rounding). -/
def parseJsonNumber (cs : List Char) : Option (JsValue × List Char) :=
  let signSplit : Bool × List Char :=
    match cs with
    | c :: rest => if c = chMinus then (true, rest) else (false, cs)
    | [] => (false, [])
  let neg := signSplit.1
  let cs1 := signSplit.2
  match cs1 with
  | [] => none
  | c :: _ =>
    if ¬ c.isDigit then none
    else
      let ip := takeDigits cs1
      if ip.1.length > 1 ∧ ip.1.head? = some chZero then none
      else
        let ipart : Nat := digitsToNat ip.1
        let fracSplit : Option (List Char × List Char) :=
          match ip.2 with
          | c2 :: rest2 =>
            if c2 = chDot then
              let fp := takeDigits rest2
              if fp.1.isEmpty then none else some (fp.1, fp.2)
            else some ([], ip.2)
          | [] => some ([], [])
        match fracSplit with
        | none => none
        | some (fracDigits, cs2) =>
          let expSplit : Option (Bool × List Char × List Char) :=
            match cs2 with
            | c3 :: rest3 =>
              if c3 = chLowerE ∨ c3 = chUpperE then
                let signedRest : Bool × List Char :=
                  match rest3 with
                  | c4 :: rest4 =>
                    if c4 = chMinus then (true, rest4)
                    else if c4 = chPlus then (false, rest4)
                    else (false, rest3)
                  | [] => (false, [])
                let ep := takeDigits signedRest.2
                if ep.1.isEmpty then none else some (signedRest.1, ep.1, ep.2)
              else some (false, [], cs2)
            | [] => some (false, [], [])
          match expSplit with
          | none => none
          | some (expNeg, expDigits, cs3) =>
            if fracDigits.isEmpty ∧ expDigits.isEmpty then
              let intVal : Int := if neg then -(ipart : Int) else (ipart : Int)
              some (JsValue.num (intVal : Rat), cs3)
            else
              let mantissa : Rat :=
                (ipart : Rat) + (digitsToNat fracDigits : Rat) / ((10 : Rat) ^ fracDigits.length)
              let scaled : Rat :=
                if expNeg then mantissa / ((10 : Rat) ^ digitsToNat expDigits)
                else mantissa * ((10 : Rat) ^ digitsToNat expDigits)
              some (JsValue.num (if neg then -scaled else scaled), cs3)

mutual

/-- The value production of the JSON grammar, fuelled (the fuel bounds
recursion depth and member count; `jsonParse` supplies enough for any
input). -/
def parseJsonValue : Nat → List Char → Option (JsValue × List Char)
  | 0, _ => none
  | f + 1, cs =>
    match jsonSkipWs cs with
    | [] => none
    | c :: rest =>
      if c = chQuote then
        match parseJsonStringBody (f + 1) rest [] with
        | some (s, r) => some (JsValue.str s, r)
        | none => none
      else if c = chLBrace then
        match jsonSkipWs rest with
        | c2 :: rest2 =>
          if c2 = chRBrace then some (JsValue.obj [], rest2)
          else parseJsonMembers f (c2 :: rest2) []
        | [] => none
      else if c = chLBracket then
        match jsonSkipWs rest with
        | c2 :: rest2 =>
          if c2 = chRBracket then some (JsValue.arr [], rest2)
          else parseJsonElements f (c2 :: rest2) []
        | [] => none
      else if c = ('t') then
        match rest with
        | 'r' :: 'u' :: 'e' :: r => some (JsValue.bool true, r)
        | _ => none
      else if c = ('f') then
        match rest with
        | 'a' :: 'l' :: 's' :: 'e' :: r => some (JsValue.bool false, r)
        | _ => none
      else if c = ('n') then
        match rest with
        | 'u' :: 'l' :: 'l' :: r => some (JsValue.null, r)
        | _ => none
      else parseJsonNumber (c :: rest)

/-- Object members: `string : value` pairs separated by commas, closed
by a right brace.  Called on input past the opening brace with at least
one member. -/
def parseJsonMembers : Nat → List Char → List (String × JsValue) →
    Option (JsValue × List Char)
  | 0, _, _ => none
  | f + 1, cs, acc =>
    match jsonSkipWs cs with
    | [] => none
    | c :: rest =>
      if c = chQuote then
        match parseJsonStringBody (f + 1) rest [] with
        | none => none
        | some (key, r1) =>
          match jsonSkipWs r1 with
          | c2 :: r2 =>
            if c2 = chColon then
              match parseJsonValue f r2 with
              | none => none
              | some (v, r3) =>
                match jsonSkipWs r3 with
                | c3 :: r4 =>
                  if c3 = chComma then parseJsonMembers f r4 ((key, v) :: acc)
                  else if c3 = chRBrace then
                    some (JsValue.obj ((key, v) :: acc).reverse, r4)
                  else none
                | [] => none
            else none
          | [] => none
      else none

/-- Array elements separated by commas, closed by a right bracket.
Called on input past the opening bracket with at least one element. -/
def parseJsonElements : Nat → List Char → List JsValue → Option (JsValue × List Char)
  | 0, _, _ => none
  | f + 1, cs, acc =>
    match parseJsonValue f cs with
    | none => none
    | some (v, r1) =>
      match jsonSkipWs r1 with
      | c :: r2 =>
        if c = chComma then parseJsonElements f r2 (v :: acc)
        else if c = chRBracket then some (JsValue.arr (v :: acc).reverse, r2)
        else none
      | [] => none

end

/-- Model of `JSON.parse`: parse one JSON value and require only
whitespace to follow. -/
def jsonParse (s : String) : Option JsValue :=
  match parseJsonValue (s.length + 16) s.data with
  | some (v, rest) => if (jsonSkipWs rest).isEmpty then some v else none
  | none => none

/-- The guard of the normalizer: `value.startsWith('\x7b') ||
value.startsWith('[')`, i.e. the first character is a left brace or a
left bracket. -/
def jsonLikeStart (s : String) : Bool :=
  match s.data with
  | c :: _ => c = chLBrace || c = chLBracket
  | [] => false

/-- Model of JavaScript `s.slice(0, n)`: the first `n` characters. -/
def jsSlice (s : String) (n : Nat) : String := String.mk (s.data.take n)

mutual

/-- Embedding of `parseStringifiedJsonFields` (src/src/main.ts lines
902-920): for each entry of the mapping, a string value that starts with
a brace or bracket is replaced by `JSON.parse` of it when that parse
succeeds (and kept as the original string otherwise); a non-null,
non-array object value is recursed into; every other value passes
through unchanged. -/
def parseStringifiedJsonFields : JsObject → JsObject
  | [] => []
  | (key, value) :: rest =>
    (key, parseStringifiedJsonValue value) :: parseStringifiedJsonFields rest
termination_by structural x => x

/-- The per-value action of `parseStringifiedJsonFields`'s loop body. -/
def parseStringifiedJsonValue : JsValue → JsValue
  | JsValue.str s =>
    if jsonLikeStart s then (jsonParse s).getD (JsValue.str s) else JsValue.str s
  | JsValue.obj fields => JsValue.obj (parseStringifiedJsonFields fields)
  | v => v
termination_by structural v => v

end

/-! ## JavaScript object access and observation field getters -/

/-- Key access on a JavaScript object.  JavaScript objects hold one
binding per key (a later duplicate in a literal overrides an earlier
one), so lookup takes the last binding. -/
def lookupField : JsObject → String → Option JsValue
  | [], _ => none
  | (k, v) :: rest, key =>
    match lookupField rest key with
    | some r => some r
    | none => if k = key then some v else none

/-- Property access `v[key]` (returns `none` on non-objects, like
JavaScript `undefined`). -/
def getField : JsValue → String → Option JsValue
  | JsValue.obj fields, key => lookupField fields key
  | _, _ => none

def obsErrorMessage (v : JsValue) : Option String :=
  match getField v ("error_message") with
  | some (JsValue.str s) => some s
  | _ => none

def obsErrorType (v : JsValue) : Option String :=
  match getField v ("error_type") with
  | some (JsValue.str s) => some s
  | _ => none

def obsSuccess (v : JsValue) : Option Bool :=
  match getField v ("success") with
  | some (JsValue.bool b) => some b
  | _ => none

/-- `observation?.success !== false` — the derived `success` flag of a
gate trace entry. -/
def observationIsSuccess (v : JsValue) : Bool :=
  match getField v ("success") with
  | some (JsValue.bool false) => false
  | _ => true

/-! ## zod validation model

Validators model `schema.safeParse`: they return either the typed,
parsed value or the list of validation issues.  An issue is modelled by
its path and message; `stringifyIssues` models both
`JSON.stringify(error.issues)` and the thrown `ZodError`'s `.message`
(whose exact text is a zod library detail; the model fixes one
deterministic rendering). -/

structure ZodIssue where
  path : List String
  message : String

def quoteStr (s : String) : String := "\"" ++ s ++ "\""

def joinComma : List String → String
  | [] => ""
  | [s] => s
  | s :: rest => s ++ "," ++ joinComma rest

def renderIssue (i : ZodIssue) : String :=
  "\x7b\"path\":[" ++ joinComma (i.path.map quoteStr) ++ "],\"message\":" ++
    quoteStr i.message ++ "\x7d"

def stringifyIssues (issues : List ZodIssue) : String :=
  "[" ++ joinComma (issues.map renderIssue) ++ "]"

def issuesOf {α : Type} : Except (List ZodIssue) α → List ZodIssue
  | Except.ok _ => []
  | Except.error is => is

/-- Model of zod's URL format check (`z.string().url()`); the exact
accepted grammar is a zod library detail none of the claims depends
on. -/
def isValidUrl (s : String) : Bool :=
  List.isPrefixOf ("https://").data s.data || List.isPrefixOf ("http://").data s.data

def isHexChar (c : Char) : Bool := (hexVal c).isSome

def splitOnDash : List Char → List (List Char)
  | [] => [[]]
  | c :: rest =>
    let parts := splitOnDash rest
    if c = chMinus then [] :: parts
    else
      match parts with
      | p :: ps => (c :: p) :: ps
      | [] => [[c]]

/-- Model of zod's UUID format check (`z.string().uuid()`). -/
def isUuidLike (s : String) : Bool :=
  match splitOnDash s.data with
  | [a, b, c, d, e] =>
    a.length = 8 && b.length = 4 && c.length = 4 && d.length = 4 && e.length = 12 &&
      (a ++ b ++ c ++ d ++ e).all isHexChar
  | _ => false

def splitOnAt : List Char → List (List Char)
  | [] => [[]]
  | c :: rest =>
    let parts := splitOnAt rest
    if c = ('@') then [] :: parts
    else
      match parts with
      | p :: ps => (c :: p) :: ps
      | [] => [[c]]

/-- Model of zod's email format check (`z.string().email()`). -/
def isEmailLike (s : String) : Bool :=
  match splitOnAt s.data with
  | [beforeAt, afterAt] =>
    beforeAt.length > 0 && afterAt.length > 0 &&
      (s.data.all fun c => ¬ jsonWhitespace.contains c)
  | _ => false

def zodNumberField (v : JsObject) (key : String) : Except (List ZodIssue) Rat :=
  match lookupField v key with
  | some (JsValue.num q) => Except.ok q
  | some _ => Except.error [⟨[key], "Invalid input: expected number"⟩]
  | none => Except.error [⟨[key], "Invalid input: expected number, received undefined"⟩]

def zodStringField (v : JsObject) (key : String) : Except (List ZodIssue) String :=
  match lookupField v key with
  | some (JsValue.str s) => Except.ok s
  | some _ => Except.error [⟨[key], "Invalid input: expected string"⟩]
  | none => Except.error [⟨[key], "Invalid input: expected string, received undefined"⟩]

/-! ## Tool input schemas (src/src/main.ts lines 23-107) -/

/-- `z.enum(['multiply', 'add', 'subtract', 'divide'])`. -/
inductive CalcOp where
  | multiply
  | add
  | subtract
  | divide
deriving DecidableEq

def calcOpToString : CalcOp → String
  | CalcOp.multiply => "multiply"
  | CalcOp.add => "add"
  | CalcOp.subtract => "subtract"
  | CalcOp.divide => "divide"

def stringToCalcOp (s : String) : Option CalcOp :=
  if s = "multiply" then some CalcOp.multiply
  else if s = "add" then some CalcOp.add
  else if s = "subtract" then some CalcOp.subtract
  else if s = "divide" then some CalcOp.divide
  else none

structure CalculatorInput where
  a : Rat
  b : Rat
  operation : CalcOp

/-- `CalculatorInputSchema.safeParse`: `a` and `b` numbers, `operation`
one of the four enum values.  Unknown keys are stripped (zod object
default). -/
def CalculatorInputSchema (v : JsObject) : Except (List ZodIssue) CalculatorInput :=
  let ra := zodNumberField v ("a")
  let rb := zodNumberField v ("b")
  let rop : Except (List ZodIssue) CalcOp :=
    match lookupField v ("operation") with
    | some (JsValue.str s) =>
      match stringToCalcOp s with
      | some op => Except.ok op
      | none => Except.error [⟨["operation"], "Invalid option"⟩]
    | some _ => Except.error [⟨["operation"], "Invalid option: expected one of the enum values"⟩]
    | none => Except.error [⟨["operation"], "Invalid option: received undefined"⟩]
  match ra, rb, rop with
  | Except.ok a, Except.ok b, Except.ok op => Except.ok ⟨a, b, op⟩
  | _, _, _ => Except.error (issuesOf ra ++ issuesOf rb ++ issuesOf rop)

structure WebFetchInput where
  url : String
  timeout_ms : Int
  max_chars : Int
  method : String

/-- A bounded-integer field with a default: `z.number().int().min(lo)
.max(hi).default(dflt)` (the default applies when the key is absent). -/
def zodBoundedIntField (v : JsObject) (key : String) (lo hi dflt : Int) :
    Except (List ZodIssue) Int :=
  match lookupField v key with
  | none => Except.ok dflt
  | some (JsValue.num q) =>
    if q.den = 1 ∧ (lo : Rat) ≤ q ∧ q ≤ (hi : Rat) then Except.ok q.num
    else Except.error [⟨[key], "Invalid number: out of bounds or not an integer"⟩]
  | some _ => Except.error [⟨[key], "Invalid input: expected number"⟩]

/-- `WebFetchInputSchema.safeParse`. -/
def WebFetchInputSchema (v : JsObject) : Except (List ZodIssue) WebFetchInput :=
  let rurl : Except (List ZodIssue) String :=
    match lookupField v ("url") with
    | some (JsValue.str s) =>
      if isValidUrl s then Except.ok s
      else Except.error [⟨["url"], "Invalid URL"⟩]
    | some _ => Except.error [⟨["url"], "Invalid input: expected string"⟩]
    | none => Except.error [⟨["url"], "Invalid input: expected string, received undefined"⟩]
  let rtimeout := zodBoundedIntField v ("timeout_ms") 100 10000 2500
  let rmax := zodBoundedIntField v ("max_chars") 200 5000 1500
  let rmethod : Except (List ZodIssue) String :=
    match lookupField v ("method") with
    | none => Except.ok "GET"
    | some (JsValue.str s) =>
      if s = "GET" then Except.ok s
      else Except.error [⟨["method"], "Invalid option"⟩]
    | some _ => Except.error [⟨["method"], "Invalid option: expected GET"⟩]
  match rurl, rtimeout, rmax, rmethod with
  | Except.ok u, Except.ok t, Except.ok m, Except.ok me => Except.ok ⟨u, t, m, me⟩
  | _, _, _, _ =>
    Except.error (issuesOf rurl ++ issuesOf rtimeout ++ issuesOf rmax ++ issuesOf rmethod)

/-- `CANDIDATE_COLUMN_ENUM`. -/
inductive CandCol where
  | id
  | name
  | email
  | address
deriving DecidableEq

def candColToString : CandCol → String
  | CandCol.id => "id"
  | CandCol.name => "name"
  | CandCol.email => "email"
  | CandCol.address => "address"

def stringToCandCol (s : String) : Option CandCol :=
  if s = "id" then some CandCol.id
  else if s = "name" then some CandCol.name
  else if s = "email" then some CandCol.email
  else if s = "address" then some CandCol.address
  else none

/-- `OPPORTUNITY_COLUMN_ENUM`. -/
inductive OppCol where
  | id
  | name
  | position
  | stage
deriving DecidableEq

def oppColToString : OppCol → String
  | OppCol.id => "id"
  | OppCol.name => "name"
  | OppCol.position => "position"
  | OppCol.stage => "stage"

def stringToOppCol (s : String) : Option OppCol :=
  if s = "id" then some OppCol.id
  else if s = "name" then some OppCol.name
  else if s = "position" then some OppCol.position
  else if s = "stage" then some OppCol.stage
  else none

inductive Stage where
  | applied
  | screen
  | onsite
deriving DecidableEq

def stageToString : Stage → String
  | Stage.applied => "applied"
  | Stage.screen => "screen"
  | Stage.onsite => "onsite"

def stringToStage (s : String) : Option Stage :=
  if s = "applied" then some Stage.applied
  else if s = "screen" then some Stage.screen
  else if s = "onsite" then some Stage.onsite
  else none

/-- The `where` discriminated union of `CandidatesInputQuerySchema`:
the discriminant field with the `=` operator and the per-field value
constraint. -/
inductive CandWhere where
  | byName (value : String)
  | byEmail (value : String)
  | byId (value : String)
  | byAddress (value : String)

def candWhereFieldName : CandWhere → String
  | CandWhere.byName _ => "name"
  | CandWhere.byEmail _ => "email"
  | CandWhere.byId _ => "id"
  | CandWhere.byAddress _ => "address"

def candWhereValue : CandWhere → String
  | CandWhere.byName v => v
  | CandWhere.byEmail v => v
  | CandWhere.byId v => v
  | CandWhere.byAddress v => v

/-- The `where` discriminated union of `OpportunitiesInputQuerySchema`. -/
inductive OppWhere where
  | byName (value : String)
  | byPosition (value : String)
  | byId (value : String)
  | byStage (value : Stage)

def oppWhereFieldName : OppWhere → String
  | OppWhere.byName _ => "name"
  | OppWhere.byPosition _ => "position"
  | OppWhere.byId _ => "id"
  | OppWhere.byStage _ => "stage"

def oppWhereValue : OppWhere → String
  | OppWhere.byName v => v
  | OppWhere.byPosition v => v
  | OppWhere.byId v => v
  | OppWhere.byStage v => stageToString v

structure CandidatesQueryInput where
  columns : List CandCol
  whereClause : CandWhere
  limit : Int

structure OpportunitiesQueryInput where
  columns : List OppCol
  whereClause : OppWhere
  limit : Int

/-- The shared shape of both `where` discriminated unions: an object
with a string discriminant `field`, the literal `=` operator and a
string `value`. -/
def parseWhereCommon (w : JsObject) : Option (String × String) :=
  match lookupField w ("field"), lookupField w ("operator"), lookupField w ("value") with
  | some (JsValue.str f), some (JsValue.str op), some (JsValue.str v) =>
    if op = "=" then some (f, v) else none
  | _, _, _ => none

/-- `CandidatesInputQuerySchema.safeParse` (table literal, non-empty
column list over the candidate column enum, discriminated `where`,
bounded `limit` defaulting to 10). -/
def CandidatesInputQuerySchema (v : JsObject) : Except (List ZodIssue) CandidatesQueryInput :=
  let rtable : Except (List ZodIssue) Unit :=
    match lookupField v ("table") with
    | some (JsValue.str s) =>
      if s = "candidates" then Except.ok ()
      else Except.error [⟨["table"], "Invalid literal: expected candidates"⟩]
    | _ => Except.error [⟨["table"], "Invalid literal: expected candidates"⟩]
  let rcols : Except (List ZodIssue) (List CandCol) :=
    match lookupField v ("columns") with
    | some (JsValue.arr elems) =>
      let parsed := elems.map fun e =>
        match e with
        | JsValue.str s => stringToCandCol s
        | _ => none
      if parsed.all Option.isSome ∧ parsed.length ≥ 1 then
        Except.ok (parsed.filterMap id)
      else Except.error [⟨["columns"], "Invalid columns array"⟩]
    | _ => Except.error [⟨["columns"], "Invalid input: expected array"⟩]
  let rwhere : Except (List ZodIssue) CandWhere :=
    match lookupField v ("where") with
    | some (JsValue.obj w) =>
      match parseWhereCommon w with
      | some (f, value) =>
        if f = "name" then
          if value.length ≥ 1 then Except.ok (CandWhere.byName value)
          else Except.error [⟨["where", "value"], "Too small: expected string of at least 1 character"⟩]
        else if f = "email" then
          if isEmailLike value then Except.ok (CandWhere.byEmail value)
          else Except.error [⟨["where", "value"], "Invalid email"⟩]
        else if f = "id" then
          if isUuidLike value then Except.ok (CandWhere.byId value)
          else Except.error [⟨["where", "value"], "Invalid UUID"⟩]
        else if f = "address" then
          if value.length ≥ 5 then Except.ok (CandWhere.byAddress value)
          else Except.error [⟨["where", "value"], "Too small: expected string of at least 5 characters"⟩]
        else Except.error [⟨["where", "field"], "Invalid discriminator value"⟩]
      | none => Except.error [⟨["where"], "Invalid where clause"⟩]
    | _ => Except.error [⟨["where"], "Invalid input: expected object"⟩]
  let rlimit := zodBoundedIntField v ("limit") 1 25 10
  match rtable, rcols, rwhere, rlimit with
  | Except.ok _, Except.ok cols, Except.ok w, Except.ok lim => Except.ok ⟨cols, w, lim⟩
  | _, _, _, _ =>
    Except.error (issuesOf rtable ++ issuesOf rcols ++ issuesOf rwhere ++ issuesOf rlimit)

/-- `OpportunitiesInputQuerySchema.safeParse`. -/
def OpportunitiesInputQuerySchema (v : JsObject) : Except (List ZodIssue) OpportunitiesQueryInput :=
  let rtable : Except (List ZodIssue) Unit :=
    match lookupField v ("table") with
    | some (JsValue.str s) =>
      if s = "opportunities" then Except.ok ()
      else Except.error [⟨["table"], "Invalid literal: expected opportunities"⟩]
    | _ => Except.error [⟨["table"], "Invalid literal: expected opportunities"⟩]
  let rcols : Except (List ZodIssue) (List OppCol) :=
    match lookupField v ("columns") with
    | some (JsValue.arr elems) =>
      let parsed := elems.map fun e =>
        match e with
        | JsValue.str s => stringToOppCol s
        | _ => none
      if parsed.all Option.isSome ∧ parsed.length ≥ 1 then
        Except.ok (parsed.filterMap id)
      else Except.error [⟨["columns"], "Invalid columns array"⟩]
    | _ => Except.error [⟨["columns"], "Invalid input: expected array"⟩]
  let rwhere : Except (List ZodIssue) OppWhere :=
    match lookupField v ("where") with
    | some (JsValue.obj w) =>
      match parseWhereCommon w with
      | some (f, value) =>
        if f = "name" then
          if value.length ≥ 1 then Except.ok (OppWhere.byName value)
          else Except.error [⟨["where", "value"], "Too small: expected string of at least 1 character"⟩]
        else if f = "position" then Except.ok (OppWhere.byPosition value)
        else if f = "id" then
          if isUuidLike value then Except.ok (OppWhere.byId value)
          else Except.error [⟨["where", "value"], "Invalid UUID"⟩]
        else if f = "stage" then
          match stringToStage value with
          | some st => Except.ok (OppWhere.byStage st)
          | none => Except.error [⟨["where", "value"], "Invalid option"⟩]
        else Except.error [⟨["where", "field"], "Invalid discriminator value"⟩]
      | none => Except.error [⟨["where"], "Invalid where clause"⟩]
    | _ => Except.error [⟨["where"], "Invalid input: expected object"⟩]
  let rlimit := zodBoundedIntField v ("limit") 1 25 10
  match rtable, rcols, rwhere, rlimit with
  | Except.ok _, Except.ok cols, Except.ok w, Except.ok lim => Except.ok ⟨cols, w, lim⟩
  | _, _, _, _ =>
    Except.error (issuesOf rtable ++ issuesOf rcols ++ issuesOf rwhere ++ issuesOf rlimit)

/-! ## Output (observation) schemas and `.parse`

`schema.parse(x)` either returns the observation or throws a `ZodError`;
the throw is modelled as `Except.error` carrying the error's message.
zod's `.parse` also rebuilds the object with schema-ordered keys; the
model returns the argument unchanged, since no verified claim observes
JSON key order. -/

def zodParse (check : JsValue → List ZodIssue) (v : JsValue) : Except String JsValue :=
  match check v with
  | [] => Except.ok v
  | issues => Except.error (stringifyIssues issues)

def issueAt (key msg : String) : ZodIssue := ⟨[key], msg⟩

/-- `z.literal(b)` on field `key` (for the `success` discriminant). -/
def vBoolLiteral (v : JsValue) (key : String) (expected : Bool) : List ZodIssue :=
  match getField v key with
  | some (JsValue.bool b) => if b = expected then [] else [issueAt key "Invalid literal"]
  | _ => [issueAt key "Invalid literal"]

def vStrLiteral (v : JsValue) (key expected : String) : List ZodIssue :=
  match getField v key with
  | some (JsValue.str s) => if s = expected then [] else [issueAt key "Invalid literal"]
  | _ => [issueAt key "Invalid literal"]

/-- `z.number()` on field `key`. -/
def vNum (v : JsValue) (key : String) : List ZodIssue :=
  match getField v key with
  | some (JsValue.num _) => []
  | _ => [issueAt key "Invalid input: expected number"]

/-- Optional `z.number()` on field `key`. -/
def vNumOpt (v : JsValue) (key : String) : List ZodIssue :=
  match getField v key with
  | some (JsValue.num _) => []
  | none => []
  | _ => [issueAt key "Invalid input: expected number"]

/-- `z.number().int()` with inclusive bounds on field `key`. -/
def vIntBetween (v : JsValue) (key : String) (lo hi : Int) : List ZodIssue :=
  match getField v key with
  | some (JsValue.num q) =>
    if q.den = 1 ∧ (lo : Rat) ≤ q ∧ q ≤ (hi : Rat) then []
    else [issueAt key "Invalid number: out of bounds or not an integer"]
  | _ => [issueAt key "Invalid input: expected number"]

/-- Optional `z.number().int()` with inclusive bounds. -/
def vIntBetweenOpt (v : JsValue) (key : String) (lo hi : Int) : List ZodIssue :=
  match getField v key with
  | none => []
  | _ => vIntBetween v key lo hi

/-- `z.string().min(lo).max(hi)` on field `key` (length bounds). -/
def vStrLenBetween (v : JsValue) (key : String) (lo hi : Nat) : List ZodIssue :=
  match getField v key with
  | some (JsValue.str s) =>
    if lo ≤ s.length ∧ s.length ≤ hi then []
    else [issueAt key "Invalid string length"]
  | _ => [issueAt key "Invalid input: expected string"]

def vStr (v : JsValue) (key : String) : List ZodIssue :=
  match getField v key with
  | some (JsValue.str _) => []
  | _ => [issueAt key "Invalid input: expected string"]

def vStrOpt (v : JsValue) (key : String) : List ZodIssue :=
  match getField v key with
  | some (JsValue.str _) => []
  | none => []
  | _ => [issueAt key "Invalid input: expected string"]

def vBool (v : JsValue) (key : String) : List ZodIssue :=
  match getField v key with
  | some (JsValue.bool _) => []
  | _ => [issueAt key "Invalid input: expected boolean"]

/-- `z.enum(options)` on field `key`. -/
def vEnum (v : JsValue) (key : String) (options : List String) : List ZodIssue :=
  match getField v key with
  | some (JsValue.str s) => if options.contains s then [] else [issueAt key "Invalid option"]
  | _ => [issueAt key "Invalid option"]

/-- A string array over an enum, non-empty (`z.array(enum).min(1)`). -/
def vEnumArrayMin1 (v : JsValue) (key : String) (options : List String) : List ZodIssue :=
  match getField v key with
  | some (JsValue.arr elems) =>
    let ok := elems.all fun e =>
      match e with
      | JsValue.str s => options.contains s
      | _ => false
    if ok ∧ elems.length ≥ 1 then [] else [issueAt key "Invalid columns array"]
  | _ => [issueAt key "Invalid input: expected array"]

/-- `CalculatorSuccessSchema`: success literal, finite numeric result,
numeric operands, enum operation.  Every modelled number is finite, so
`.finite()` is satisfied by any `num`. -/
def checkCalculatorSuccess (v : JsValue) : List ZodIssue :=
  vBoolLiteral v ("success") true ++ vNum v ("result") ++ vNum v ("a") ++ vNum v ("b") ++
    vEnum v ("operation") ["multiply", "add", "subtract", "divide"]

/-- `CalculatorFailureSchema` (src/src/main.ts lines 514-521): success
literal false, optional numeric operands, required enum operation,
`error_message` between 5 and 100 characters, `error_type` in the
four-value enum. -/
def checkCalculatorFailure (v : JsValue) : List ZodIssue :=
  vBoolLiteral v ("success") false ++ vNumOpt v ("a") ++ vNumOpt v ("b") ++
    vEnum v ("operation") ["multiply", "add", "subtract", "divide"] ++
    vStrLenBetween v ("error_message") 5 100 ++
    vEnum v ("error_type") ["invalid_input", "invalid_calculation", "runtime_error", "invalid_schema"]

/-- `WebObservationSuccessSchema`. -/
def checkWebSuccess (v : JsValue) : List ZodIssue :=
  vBoolLiteral v ("success") true ++
    (match getField v ("final_url") with
     | some (JsValue.str s) => if isValidUrl s then [] else [issueAt "final_url" "Invalid URL"]
     | _ => [issueAt "final_url" "Invalid input: expected string"]) ++
    vIntBetween v ("status") 200 399 ++ vIntBetween v ("timing_ms") 0 ((2 : Int) ^ 60) ++
    vStrOpt v ("content_type") ++ vStr v ("text") ++ vBool v ("truncated")

/-- `WebObservationFailureSchema` (src/src/main.ts lines 535-541):
optional status in 400..599, nonnegative integer timing, `error_message`
between 5 and 100 characters, `error_type` in the enum. -/
def checkWebFailure (v : JsValue) : List ZodIssue :=
  vBoolLiteral v ("success") false ++ vIntBetweenOpt v ("status") 400 599 ++
    vIntBetween v ("timing_ms") 0 ((2 : Int) ^ 60) ++
    vStrLenBetween v ("error_message") 5 100 ++
    vEnum v ("error_type") ["invalid_input", "http_error", "runtime_error", "invalid_schema"]

/-- `CANDIDATES_COLUMNS_TO_ZOD`: per-column value schema of the
candidates table. -/
def CANDIDATES_COLUMNS_TO_ZOD (col : String) : Option (String → Bool) :=
  if col = "id" then some isUuidLike
  else if col = "name" then some (fun s => s.length ≥ 1)
  else if col = "email" then some isEmailLike
  else if col = "address" then some (fun s => s.length ≥ 5)
  else none

/-- `OPPORTUNITIES_COLUMNS_TO_ZOD`. -/
def OPPORTUNITIES_COLUMNS_TO_ZOD (col : String) : Option (String → Bool) :=
  if col = "id" then some isUuidLike
  else if col = "name" then some (fun s => s.length ≥ 1)
  else if col = "position" then some (fun s => s.length ≥ 1)
  else if col = "stage" then some (fun s => (stringToStage s).isSome)
  else none

def candidateColumnEnum : List String := ["id", "name", "email", "address"]
def opportunityColumnEnum : List String := ["id", "name", "position", "stage"]

/-- `buildRowSchema(map, columns)` with `.strict()`: the row object has
exactly the requested columns, each value passing that column's
schema. -/
def checkRow (columnMap : String → Option (String → Bool)) (columns : List String)
    (row : JsValue) : List ZodIssue :=
  match row with
  | JsValue.obj fields =>
    let missingOrBad := columns.filter fun col =>
      match lookupField fields col with
      | some (JsValue.str s) =>
        match columnMap col with
        | some check => ¬ check s
        | none => true
      | _ => true
    let extra := fields.filter fun p => ¬ columns.contains p.1
    (missingOrBad.map fun col => issueAt col "Invalid row value") ++
      (extra.map fun p => issueAt p.1 "Unrecognized key")
  | _ => [⟨[], "Invalid input: expected object"⟩]

/-- `craftDbObservationSuccessSchema(table, columns, map)`. -/
def checkDbSuccess (table : String) (columnEnum : List String)
    (columnMap : String → Option (String → Bool)) (columns : List String)
    (v : JsValue) : List ZodIssue :=
  vBoolLiteral v ("success") true ++ vStrLiteral v ("table") table ++
    vEnumArrayMin1 v ("columns") columnEnum ++
    (match getField v ("rows") with
     | some (JsValue.arr rows) => rows.flatMap (checkRow columnMap columns)
     | _ => [issueAt "rows" "Invalid input: expected array"]) ++
    vIntBetween v ("rows_returned") 0 25 ++ vBool v ("has_more")

/-- `craftDbObservationFailureSchema(table, _map)` (src/src/main.ts
lines 432-444): `error_message` between 5 and 50 characters,
`error_type` in the four-value enum. -/
def checkDbFailure (table : String) (columnEnum : List String) (v : JsValue) : List ZodIssue :=
  vBoolLiteral v ("success") false ++ vStrLiteral v ("table") table ++
    vEnumArrayMin1 v ("columns") columnEnum ++
    vStrLenBetween v ("error_message") 5 50 ++
    vEnum v ("error_type") ["invalid_input", "invalid_schema", "runtime_error", "not_found"]

/-! ## Tool executors

An executor returns `Except String JsValue`: `Except.error msg` models a
thrown `Error` with message `msg`, which the gate catches. -/

/-- `classifyCalculatorError` (src/src/main.ts lines 543-565).  The
`resultFinite` flag models `Number.isFinite(result)` at the call. -/
def classifyCalculatorError (input : CalculatorInput) (resultFinite : Bool) : String × String :=
  if ¬ resultFinite then
    if input.operation = CalcOp.divide ∧ input.b = 0 then
      ("invalid_calculation", "Division by zero")
    else ("invalid_calculation", "Non-finite calculation result")
  else ("runtime_error", "Unknown calculation error")

/-- The `...calcInput` spread. -/
def encodeCalcInput (i : CalculatorInput) : JsObject :=
  [("a", JsValue.num i.a), ("b", JsValue.num i.b),
   ("operation", JsValue.str (calcOpToString i.operation))]

/-- The calculator executor (src/src/main.ts lines 111-165).  `a = 9999`
throws `boom` before the try block.  The arithmetic result is the exact
rational (JavaScript floats round; division by zero yields a non-finite
value, modelled as `none`).  Observations are self-validated through the
calculator output schemas; a validation throw inside the try block is
converted by the catch into a `runtime_error` failure observation with
the thrown message cut to 50 characters. -/
def calculatorTool (i : CalculatorInput) : Except String JsValue :=
  if i.a = 9999 then Except.error "boom"
  else
    let result? : Option Rat :=
      match i.operation with
      | CalcOp.multiply => some (i.a * i.b)
      | CalcOp.add => some (i.a + i.b)
      | CalcOp.subtract => some (i.a - i.b)
      | CalcOp.divide => if i.b = 0 then none else some (i.a / i.b)
    let attempt : Except String JsValue :=
      match result? with
      | some r =>
        zodParse checkCalculatorSuccess
          (JsValue.obj ([("success", JsValue.bool true), ("result", JsValue.num r)] ++
            encodeCalcInput i))
      | none =>
        let cls := classifyCalculatorError i false
        zodParse checkCalculatorFailure
          (JsValue.obj ([("success", JsValue.bool false)] ++ encodeCalcInput i ++
            [("error_type", JsValue.str cls.1), ("error_message", JsValue.str cls.2)]))
    match attempt with
    | Except.ok o => Except.ok o
    | Except.error emsg =>
      zodParse checkCalculatorFailure
        (JsValue.obj ([("success", JsValue.bool false)] ++ encodeCalcInput i ++
          [("error_type", JsValue.str "runtime_error"),
           ("error_message", JsValue.str (jsSlice emsg 50))]))

/-- What the external `fetch` did: a resolved response, an abort
(timeout), or a thrown network error. -/
inductive WebOutcome where
  | response (status : Nat) (statusText : String) (finalUrl : String)
      (contentType : Option String) (body : String)
  | abortError
  | fetchError (message : String)

/-- The network is an external capability: one outcome per request. -/
abbrev WebOracle := WebFetchInput → WebOutcome

/-- What the try block of the web executor threw: an abort or an
ordinary error (network fault or a `ZodError` from self-validation). -/
inductive WebThrown where
  | abortE
  | errE (message : String)

/-- The web fetch executor (src/src/main.ts lines 167-230), over the
fetch oracle.  Timing values are modelled as 0.  A non-ok response
builds a failure record under the key `error` (not `error_message`), so
its self-validation throws and the catch re-enters with the ZodError
message. -/
def webFetchTool (oracle : WebOracle) (i : WebFetchInput) : Except String JsValue :=
  let attempt : Except WebThrown JsValue :=
    match oracle i with
    | WebOutcome.abortError => Except.error WebThrown.abortE
    | WebOutcome.fetchError m => Except.error (WebThrown.errE m)
    | WebOutcome.response status statusText finalUrl contentType body =>
      if ¬ (200 ≤ status ∧ status ≤ 299) then
        match zodParse checkWebFailure
          (JsValue.obj [("success", JsValue.bool false), ("status", jsInt status),
            ("timing_ms", jsInt 0), ("error_type", JsValue.str "http_error"),
            ("error", JsValue.str ("HTTP " ++ toString status ++ ": " ++ statusText))]) with
        | Except.ok o => Except.ok o
        | Except.error z => Except.error (WebThrown.errE z)
      else
        let truncated := (body.length : Int) > i.max_chars
        let text := if truncated then jsSlice body i.max_chars.toNat else body
        match zodParse checkWebSuccess
          (JsValue.obj ([("success", JsValue.bool true), ("final_url", JsValue.str finalUrl),
            ("status", jsInt status), ("timing_ms", jsInt 0)] ++
            (match contentType with
             | some ct => [("content_type", JsValue.str ct)]
             | none => []) ++
            [("text", JsValue.str text), ("truncated", JsValue.bool truncated)])) with
        | Except.ok o => Except.ok o
        | Except.error z => Except.error (WebThrown.errE z)
  match attempt with
  | Except.ok o => Except.ok o
  | Except.error thrown =>
    let errorMessage :=
      match thrown with
      | WebThrown.abortE => "Request timed out after " ++ toString i.timeout_ms ++ "ms"
      | WebThrown.errE m => m
    zodParse checkWebFailure
      (JsValue.obj [("success", JsValue.bool false), ("timing_ms", jsInt 0),
        ("error_message", JsValue.str errorMessage),
        ("error_type", JsValue.str "runtime_error")])

structure CandidateRow where
  id : String
  name : String
  email : String
  address : String

def mockCandidates : List CandidateRow :=
  [⟨"550e8400-e29b-41d4-a716-446655440001", "Alice Johnson", "alice@example.com",
    "123 Main St, NYC"⟩,
   ⟨"550e8400-e29b-41d4-a716-446655440002", "Bob Smith", "bob@example.com",
    "456 Oak Ave, LA"⟩,
   ⟨"550e8400-e29b-41d4-a716-446655440003", "Carol White", "carol@example.com",
    "789 Pine Rd, Chicago"⟩]

/-- `candidate[field]` for a dynamic field name. -/
def candFieldGet (c : CandidateRow) (f : String) : Option String :=
  if f = "id" then some c.id
  else if f = "name" then some c.name
  else if f = "email" then some c.email
  else if f = "address" then some c.address
  else none

def candColValue (c : CandidateRow) : CandCol → String
  | CandCol.id => c.id
  | CandCol.name => c.name
  | CandCol.email => c.email
  | CandCol.address => c.address

/-- `candidate[where.field] === where.value`. -/
def candMatches (w : CandWhere) (c : CandidateRow) : Bool :=
  candFieldGet c (candWhereFieldName w) = some (candWhereValue w)

structure OpportunityRow where
  id : String
  name : String
  position : String
  stage : Stage

def mockOpportunities : List OpportunityRow :=
  [⟨"550e8400-e29b-41d4-a716-446655440010", "Mcdonalds", "Manager", Stage.onsite⟩,
   ⟨"550e8400-e29b-41d4-a716-446655440011", "Burger King", "Product Manager", Stage.screen⟩,
   ⟨"550e8400-e29b-41d4-a716-446655440012", "Taco Bell", "Designer", Stage.applied⟩]

def oppFieldGet (o : OpportunityRow) (f : String) : Option String :=
  if f = "id" then some o.id
  else if f = "name" then some o.name
  else if f = "position" then some o.position
  else if f = "stage" then some (stageToString o.stage)
  else none

def oppColValue (o : OpportunityRow) : OppCol → String
  | OppCol.id => o.id
  | OppCol.name => o.name
  | OppCol.position => o.position
  | OppCol.stage => stageToString o.stage

def oppMatches (w : OppWhere) (o : OpportunityRow) : Bool :=
  oppFieldGet o (oppWhereFieldName w) = some (oppWhereValue w)

/-- The failure observation object literal built by
`craftDbFailureObservation`. -/
def dbFailureObs (table : String) (columns : List String) (errMessage errType : String) :
    JsValue :=
  JsValue.obj [("success", JsValue.bool false), ("table", JsValue.str table),
    ("columns", JsValue.arr (columns.map JsValue.str)),
    ("error_message", JsValue.str errMessage), ("error_type", JsValue.str errType)]

/-- `craftDbFailureObservation` (src/src/main.ts lines 471-491): build
the failure observation and self-validate it; a validation failure is a
throw. -/
def craftDbFailureObservation (table : String) (columnEnum : List String)
    (columns : List String) (errMessage errType : String) : Except String JsValue :=
  zodParse (checkDbFailure table columnEnum) (dbFailureObs table columns errMessage errType)

/-- `craftDbSuccessObservation` (src/src/main.ts lines 446-469). -/
def craftDbSuccessObservation (table : String) (columnEnum : List String)
    (columnMap : String → Option (String → Bool)) (columns : List String)
    (rows : List JsValue) (hasMore : Bool) : Except String JsValue :=
  zodParse (checkDbSuccess table columnEnum columnMap columns)
    (JsValue.obj [("success", JsValue.bool true), ("table", JsValue.str table),
      ("columns", JsValue.arr (columns.map JsValue.str)),
      ("rows", JsValue.arr rows), ("has_more", JsValue.bool hasMore),
      ("rows_returned", jsInt rows.length)])

/-- The candidates lookup executor (src/src/main.ts lines 232-312):
filter the mock table by the where clause; zero matches yield a
`not_found` failure observation, otherwise limit, project the requested
columns and build a success observation — both self-validated; any
validation throw is converted by the catch into a `runtime_error`
failure observation with the thrown message cut to 50 characters. -/
def dbQueryCandidatesTool (input : CandidatesQueryInput) : Except String JsValue :=
  let colStrs := input.columns.map candColToString
  let attempt : Except String JsValue :=
    let filtered := mockCandidates.filter (candMatches input.whereClause)
    if filtered.length = 0 then
      craftDbFailureObservation "candidates" candidateColumnEnum colStrs
        ("No candidate found with " ++ candWhereFieldName input.whereClause ++ " = " ++
          candWhereValue input.whereClause) "not_found"
    else
      let limited := filtered.take input.limit.toNat
      let hasMore := (filtered.length : Int) > input.limit
      let rows := limited.map fun row =>
        JsValue.obj (input.columns.map fun col =>
          (candColToString col, JsValue.str (candColValue row col)))
      craftDbSuccessObservation "candidates" candidateColumnEnum CANDIDATES_COLUMNS_TO_ZOD
        colStrs rows hasMore
  match attempt with
  | Except.ok o => Except.ok o
  | Except.error e =>
    craftDbFailureObservation "candidates" candidateColumnEnum colStrs (jsSlice e 50)
      "runtime_error"

/-- The opportunities lookup executor (src/src/main.ts lines 314-391). -/
def dbQueryOpportunitiesTool (input : OpportunitiesQueryInput) : Except String JsValue :=
  let colStrs := input.columns.map oppColToString
  let attempt : Except String JsValue :=
    let filtered := mockOpportunities.filter (oppMatches input.whereClause)
    if filtered.length = 0 then
      craftDbFailureObservation "opportunities" opportunityColumnEnum colStrs
        ("No opportunity found with " ++ oppWhereFieldName input.whereClause ++ " = " ++
          oppWhereValue input.whereClause) "not_found"
    else
      let limited := filtered.take input.limit.toNat
      let hasMore := (filtered.length : Int) > input.limit
      let rows := limited.map fun row =>
        JsValue.obj (input.columns.map fun col =>
          (oppColToString col, JsValue.str (oppColValue row col)))
      craftDbSuccessObservation "opportunities" opportunityColumnEnum
        OPPORTUNITIES_COLUMNS_TO_ZOD colStrs rows hasMore
  match attempt with
  | Except.ok o => Except.ok o
  | Except.error e =>
    craftDbFailureObservation "opportunities" opportunityColumnEnum colStrs (jsSlice e 50)
      "runtime_error"

/-! ## Agent state, registries and the verification-and-execution gate -/

structure ToolCallReq where
  id : String
  name : String
  args : JsObject

/-- A tool-result message.  The source stores
`JSON.stringify(observation)` as the content string and the tests read
it back with `JSON.parse`; the model keeps the structured value (the
serialization of these values round-trips). -/
structure ToolMessage where
  tool_call_id : String
  content : JsValue

structure ToolTraceData where
  step : Nat
  toolName : String
  toolCallId : String
  input : JsValue
  inputValid : Bool
  validationError : Option String
  observation : JsValue
  success : Bool
  timestamp : Nat
  durationMs : Nat

inductive Decision where
  | tool_use
  | final_answer
  | max_attempts
deriving DecidableEq

structure LLMTraceData where
  step : Nat
  decision : Decision
  toolsCalled : Option (List String)
  timestamp : Nat

inductive TraceEntry where
  | llm (data : LLMTraceData)
  | tool (data : ToolTraceData)

inductive ChatMessage where
  | human (text : String)
  | ai (content : String) (tool_calls : List ToolCallReq)
  | toolResult (m : ToolMessage)

/-- `AgentStateSchema.State`.  `step` and `maxStep` are the integers the
loop uses; timestamps in entries are externally supplied instants. -/
structure AgentState where
  messages : List ChatMessage
  userQuery : String
  tool_calls : Option (List ToolCallReq)
  step : Nat
  response : Option String
  maxStep : Nat
  trace : List TraceEntry

inductive ToolId where
  | calculator
  | web_fetch_mock
  | db_query_candidates
  | db_query_opportunities
deriving DecidableEq

def assocLookup {α : Type} : List (String × α) → String → Option α
  | [], _ => none
  | (k, v) :: rest, key => if k = key then some v else assocLookup rest key

/-- `TOOL_BY_NAME` (src/src/main.ts lines 393-398): the registered tool
for each name. -/
def TOOL_BY_NAME : List (String × ToolId) :=
  [("calculator", ToolId.calculator), ("web_fetch_mock", ToolId.web_fetch_mock),
   ("db_query_candidates", ToolId.db_query_candidates),
   ("db_query_opportunities", ToolId.db_query_opportunities)]

/-- `TOOL_INPUT_SCHEMAS` (src/src/main.ts lines 102-107): the input
schema for each name (same four keys as the tool registry, so the
gate's no-schema branch is unreachable in practice but still
modelled). -/
def TOOL_INPUT_SCHEMAS : List (String × ToolId) :=
  [("calculator", ToolId.calculator), ("web_fetch_mock", ToolId.web_fetch_mock),
   ("db_query_candidates", ToolId.db_query_candidates),
   ("db_query_opportunities", ToolId.db_query_opportunities)]

inductive ParsedInput where
  | calc (i : CalculatorInput)
  | web (i : WebFetchInput)
  | dbCand (i : CandidatesQueryInput)
  | dbOpp (i : OpportunitiesQueryInput)

/-- `schema.safeParse` dispatched on the selected schema. -/
def toolSafeParse : ToolId → JsObject → Except (List ZodIssue) ParsedInput
  | ToolId.calculator, v => (CalculatorInputSchema v).map ParsedInput.calc
  | ToolId.web_fetch_mock, v => (WebFetchInputSchema v).map ParsedInput.web
  | ToolId.db_query_candidates, v => (CandidatesInputQuerySchema v).map ParsedInput.dbCand
  | ToolId.db_query_opportunities, v => (OpportunitiesInputQuerySchema v).map ParsedInput.dbOpp

def encodeCandWhere (w : CandWhere) : JsValue :=
  JsValue.obj [("field", JsValue.str (candWhereFieldName w)), ("operator", JsValue.str "="),
    ("value", JsValue.str (candWhereValue w))]

def encodeOppWhere (w : OppWhere) : JsValue :=
  JsValue.obj [("field", JsValue.str (oppWhereFieldName w)), ("operator", JsValue.str "="),
    ("value", JsValue.str (oppWhereValue w))]

/-- `parsed.data` as a JavaScript object (zod returns the parsed object
with schema-shaped keys). -/
def encodeParsedInput : ParsedInput → JsValue
  | ParsedInput.calc i => JsValue.obj (encodeCalcInput i)
  | ParsedInput.web i =>
    JsValue.obj [("url", JsValue.str i.url), ("timeout_ms", jsInt i.timeout_ms),
      ("max_chars", jsInt i.max_chars), ("method", JsValue.str i.method)]
  | ParsedInput.dbCand i =>
    JsValue.obj [("table", JsValue.str "candidates"),
      ("columns", JsValue.arr (i.columns.map fun c => JsValue.str (candColToString c))),
      ("where", encodeCandWhere i.whereClause), ("limit", jsInt i.limit)]
  | ParsedInput.dbOpp i =>
    JsValue.obj [("table", JsValue.str "opportunities"),
      ("columns", JsValue.arr (i.columns.map fun c => JsValue.str (oppColToString c))),
      ("where", encodeOppWhere i.whereClause), ("limit", jsInt i.limit)]

/-- The executor bound to each registered tool.  The gate is defined
over an arbitrary executor assignment so that non-invocation of
executors is expressible; `realExecutors` is the source's assignment. -/
structure Executors where
  calculator : CalculatorInput → Except String JsValue
  web_fetch_mock : WebFetchInput → Except String JsValue
  db_query_candidates : CandidatesQueryInput → Except String JsValue
  db_query_opportunities : OpportunitiesQueryInput → Except String JsValue

def realExecutors (oracle : WebOracle) : Executors :=
  ⟨calculatorTool, webFetchTool oracle, dbQueryCandidatesTool, dbQueryOpportunitiesTool⟩

def invokeTool (ex : Executors) : ParsedInput → Except String JsValue
  | ParsedInput.calc i => ex.calculator i
  | ParsedInput.web i => ex.web_fetch_mock i
  | ParsedInput.dbCand i => ex.db_query_candidates i
  | ParsedInput.dbOpp i => ex.db_query_opportunities i

/-- Model of the V8 `SyntaxError` message when `JSON.parse` is applied
to an invalid string (only the branch matters, not the exact text). -/
def jsonSyntaxErrorMessage : String := "Unexpected token in JSON"

/-- What a JavaScript property access `obj[name]` on one of the registry
object literals yields: the value of an own key, a member inherited from
`Object.prototype` (a truthy function or object, so the gate's `!tool` /
`!schema` guards do not fire on it), or `undefined`. -/
inductive PropAccess (α : Type) where
  | own (a : α)
  | inherited
  | undef

/-- The enumerable and non-enumerable members every plain object
inherits from `Object.prototype` (including the `__proto__` accessor);
accessing any of these on the registry literals yields a truthy
function or object. -/
def objectPrototypeMembers : List String :=
  ["constructor", "hasOwnProperty", "isPrototypeOf", "propertyIsEnumerable",
   "toLocaleString", "toString", "valueOf", "__proto__", "__defineGetter__",
   "__defineSetter__", "__lookupGetter__", "__lookupSetter__"]

/-- JavaScript property access on a plain object literal: own keys
first, then the `Object.prototype` chain, else `undefined`. -/
def jsObjectAccess {α : Type} (entries : List (String × α)) (name : String) : PropAccess α :=
  match assocLookup entries name with
  | some a => PropAccess.own a
  | none =>
    if objectPrototypeMembers.contains name then PropAccess.inherited
    else PropAccess.undef

/-- A thrown JavaScript error: its `name` and `message`. -/
structure JsError where
  name : String
  message : String

/-- The `TypeError` thrown by `schema.safeParse(processedArgs)` when the
schema lookup hit an inherited `Object.prototype` member instead of a
zod schema (the exact message text is an engine detail). -/
def typeErrorSafeParse : JsError := ⟨"TypeError", "schema.safeParse is not a function"⟩

/-- One iteration of the gate's `for` loop (src/src/main.ts lines
722-875): lookup, schema selection, normalization, validation, dispatch
and the catch-all.  The registry lookups are JavaScript property
accesses: a name inherited from `Object.prototype` (such as `toString`)
is truthy, so both guards are skipped and `schema.safeParse` — which
sits outside any try/catch — throws a `TypeError` that escapes the
gate, modelled as `Except.error`.  Every non-throwing branch produces
exactly one tool message and one execution trace entry.  `now` models
`Date.now()`; elapsed durations are modelled as 0. -/
def processCall (ex : Executors) (now : Nat) (step : Nat) (toolCall : ToolCallReq) :
    Except JsError (ToolMessage × TraceEntry) :=
  match jsObjectAccess TOOL_BY_NAME toolCall.name with
  | PropAccess.undef =>
    let observation := JsValue.obj [("success", JsValue.bool false),
      ("error_type", JsValue.str "invalid_input"),
      ("error_message", JsValue.str ("Unknown tool call: " ++ toolCall.name))]
    Except.ok (⟨toolCall.id, observation⟩,
     TraceEntry.tool ⟨step, toolCall.name, toolCall.id, JsValue.obj toolCall.args, false,
       some "Unknown tool", observation, false, now, 0⟩)
  | _ =>
    match jsObjectAccess TOOL_INPUT_SCHEMAS toolCall.name with
    | PropAccess.undef =>
      let observation := JsValue.obj [("success", JsValue.bool false),
        ("error_type", JsValue.str "invalid_schema"),
        ("error_message", JsValue.str ("No schema for tool: " ++ toolCall.name))]
      Except.ok (⟨toolCall.id, observation⟩,
       TraceEntry.tool ⟨step, toolCall.name, toolCall.id, JsValue.obj toolCall.args, false,
         some "No schema found", observation, false, now, 0⟩)
    | PropAccess.inherited => Except.error typeErrorSafeParse
    | PropAccess.own schemaId =>
      let processedArgs := parseStringifiedJsonFields toolCall.args
      match toolSafeParse schemaId processedArgs with
      | Except.error issues =>
        let observation := JsValue.obj [("success", JsValue.bool false),
          ("error_type", JsValue.str "invalid_schema"),
          ("error_message", JsValue.str "Schema Validation Failed")]
        Except.ok (⟨toolCall.id, observation⟩,
         TraceEntry.tool ⟨step, toolCall.name, toolCall.id, JsValue.obj processedArgs, false,
           some (stringifyIssues issues), observation, false, now, 0⟩)
      | Except.ok parsed =>
        let inputVal := encodeParsedInput parsed
        let runtimeFailure := fun (emsg : String) =>
          let observation := JsValue.obj [("success", JsValue.bool false),
            ("error_type", JsValue.str "runtime_error"),
            ("error_message", JsValue.str emsg)]
          ((⟨toolCall.id, observation⟩ : ToolMessage),
           TraceEntry.tool ⟨step, toolCall.name, toolCall.id, inputVal, true, none,
             observation, false, now, 0⟩)
        match invokeTool ex parsed with
        | Except.error emsg => Except.ok (runtimeFailure emsg)
        | Except.ok toolResult =>
          match toolResult with
          | JsValue.str s =>
            match jsonParse s with
            | none => Except.ok (runtimeFailure jsonSyntaxErrorMessage)
            | some observation =>
              Except.ok (⟨toolCall.id, observation⟩,
               TraceEntry.tool ⟨step, toolCall.name, toolCall.id, inputVal, true, none,
                 observation, observationIsSuccess observation, now, 0⟩)
          | _ =>
            Except.ok (⟨toolCall.id, toolResult⟩,
             TraceEntry.tool ⟨step, toolCall.name, toolCall.id, inputVal, true, none,
               toolResult, observationIsSuccess toolResult, now, 0⟩)

/-- The partial state update returned by `verifyAndExecuteTool`:
collected tool messages, `tool_calls: undefined`, the incremented step,
and the new trace entries. -/
structure GateUpdate where
  messages : List ToolMessage
  tool_calls : Option (List ToolCallReq)
  step : Nat
  trace : List TraceEntry

/-- The gate's `for` loop over the batch: sequential, and an uncaught
throw in any iteration aborts the whole async function — the collected
messages and entries are lost and the rejection propagates. -/
def processCalls (ex : Executors) (now step : Nat) :
    List ToolCallReq → Except JsError (List (ToolMessage × TraceEntry))
  | [] => Except.ok []
  | tc :: rest =>
    match processCall ex now step tc with
    | Except.error e => Except.error e
    | Except.ok pair =>
      match processCalls ex now step rest with
      | Except.error e => Except.error e
      | Except.ok pairs => Except.ok (pair :: pairs)

/-- `verifyAndExecuteTool` (src/src/main.ts lines 719-883): the state
update when every call completes, or the escaped throw. -/
def verifyAndExecuteTool (ex : Executors) (now : Nat) (state : AgentState) :
    Except JsError GateUpdate :=
  match processCalls ex now state.step (state.tool_calls.getD []) with
  | Except.error e => Except.error e
  | Except.ok pairs =>
    Except.ok ⟨pairs.map Prod.fst, none, state.step + 1, pairs.map Prod.snd⟩

/-! ## Classification step, router, loop and entry point -/

structure AIMessageModel where
  content : String
  tool_calls : List ToolCallReq

/-- The model-decision capability: given the conversation it returns a
message with text content and zero or more tool-call requests.  (Tool
binding and the wire protocol are outside the model.) -/
abbrev LLMOracle := List ChatMessage → AIMessageModel

/-- The partial state update returned by `getToolIntent`.  A field is
`none` when the returned object omits the key; `tool_calls := some none`
models the explicit `tool_calls: undefined`.  `step` is never set by the
source — it is modelled so that this is a provable statement. -/
structure IntentUpdate where
  messages : Option (List ChatMessage) := none
  tool_calls : Option (Option (List ToolCallReq)) := none
  response : Option String := none
  step : Option Nat := none
  trace : List TraceEntry

/-- `getToolIntent` (src/src/main.ts lines 666-717): short-circuit at
the step budget without consulting the model; otherwise classify the
model's answer as tool use or final answer. -/
def getToolIntent (llm : LLMOracle) (now : Nat) (state : AgentState) : IntentUpdate :=
  if state.step ≥ state.maxStep then
    { response := some "Max attempts reached without final answer",
      trace := [TraceEntry.llm ⟨state.step, Decision.max_attempts, none, now⟩] }
  else
    let aiMessage := llm state.messages
    let toolCalls := aiMessage.tool_calls
    if toolCalls.length > 0 then
      { messages := some [ChatMessage.ai aiMessage.content aiMessage.tool_calls],
        tool_calls := some (some toolCalls),
        trace := [TraceEntry.llm ⟨state.step, Decision.tool_use,
          some (toolCalls.map ToolCallReq.name), now⟩] }
    else
      { response := some aiMessage.content,
        tool_calls := some none,
        trace := [TraceEntry.llm ⟨state.step, Decision.final_answer, none, now⟩] }

/-- LangGraph's merge of a partial node update into the state: the
`messages` and `trace` channels append (`trace`'s reducer is
concatenation), the plain channels replace when the key is present. -/
def applyIntent (state : AgentState) (u : IntentUpdate) : AgentState :=
  { state with
    messages := state.messages ++ u.messages.getD [],
    tool_calls := match u.tool_calls with
      | none => state.tool_calls
      | some v => v,
    response := match u.response with
      | none => state.response
      | some r => some r,
    step := match u.step with
      | none => state.step
      | some s => s,
    trace := state.trace ++ u.trace }

def applyGate (state : AgentState) (u : GateUpdate) : AgentState :=
  { state with
    messages := state.messages ++ u.messages.map ChatMessage.toolResult,
    tool_calls := u.tool_calls,
    step := u.step,
    trace := state.trace ++ u.trace }

inductive RouteTarget where
  | endRoute
  | gateRoute
deriving DecidableEq

/-- JavaScript truthiness of `state.response` (a non-empty string). -/
def truthyResponse : Option String → Bool
  | some s => ¬ (s = "")
  | none => false

/-- `routeAfterClassification` (src/src/main.ts lines 884-889). -/
def routeAfterClassification (state : AgentState) : RouteTarget :=
  if truthyResponse state.response then RouteTarget.endRoute
  else if state.step ≥ state.maxStep then RouteTarget.endRoute
  else if (state.tool_calls.getD []).length > 0 then RouteTarget.gateRoute
  else RouteTarget.endRoute

/-- The compiled graph's execution: classify, route, and either stop or
run the gate and classify again.  A throw escaping the gate node rejects
the whole `app.invoke`, modelled as `Except.error`.  The fuel bounds the
number of classification rounds (LangGraph's own recursion limit plays
this role); the second component counts gate executions, including one
that throws. -/
def runLoop (llm : LLMOracle) (ex : Executors) (now : Nat) :
    Nat → AgentState → Except JsError AgentState × Nat
  | 0, s => (Except.ok s, 0)
  | fuel + 1, s =>
    let s1 := applyIntent s (getToolIntent llm now s)
    match routeAfterClassification s1 with
    | RouteTarget.endRoute => (Except.ok s1, 0)
    | RouteTarget.gateRoute =>
      match verifyAndExecuteTool ex now s1 with
      | Except.error e => (Except.error e, 1)
      | Except.ok gu =>
        let r := runLoop llm ex now fuel (applyGate s1 gu)
        (r.1, r.2 + 1)

structure ResponseMetadata where
  userQuery : String
  totalSteps : Nat
  maxSteps : Option Nat
  toolsUsed : List String
  startedAt : Nat
  completedAt : Nat
  durationMs : Nat

inductive AgentResponse where
  | success (content : String) (metadata : ResponseMetadata) (trace : List TraceEntry)
  | max_attempts_reached (content : String) (metadata : ResponseMetadata)
      (trace : List TraceEntry)
  | error (content : String) (errorType errorMessage : String)
      (metadata : ResponseMetadata) (trace : List TraceEntry)

def statusOf : AgentResponse → String
  | AgentResponse.success _ _ _ => "success"
  | AgentResponse.max_attempts_reached _ _ _ => "max_attempts_reached"
  | AgentResponse.error _ _ _ _ _ => "error"

/-- `Array.from(new Set(xs))`: first occurrences, in order. -/
def dedupFirstAux : List String → List String → List String
  | _, [] => []
  | seen, x :: rest =>
    if seen.contains x then dedupFirstAux seen rest
    else x :: dedupFirstAux (x :: seen) rest

def dedupFirst (xs : List String) : List String := dedupFirstAux [] xs

def traceToolNames (trace : List TraceEntry) : List String :=
  trace.filterMap fun e =>
    match e with
    | TraceEntry.tool d => some d.toolName
    | _ => none

/-- `result.trace.some(entry => entry.type === 'llm' && entry.data
.decision === 'max_attempts')`. -/
def hitMaxAttempts (trace : List TraceEntry) : Bool :=
  trace.any fun e =>
    match e with
    | TraceEntry.llm d =>
      match d.decision with
      | Decision.max_attempts => true
      | _ => false
    | _ => false

/-- The response assembly of `getFormattedToolOrAnswerToUserInput`
(src/src/main.ts lines 943-991) on a completed loop result.  The `error`
variant is produced only by the entry point's structural catch, which
the total model cannot enter. -/
def assembleResponse (userQuery : String) (maxStep : Nat) (startedAt completedAt : Nat)
    (result : AgentState) : AgentResponse :=
  let toolsUsed := dedupFirst (traceToolNames result.trace)
  if hitMaxAttempts result.trace then
    AgentResponse.max_attempts_reached
      (result.response.getD "Max attempts reached without final answer")
      ⟨userQuery, result.step, some maxStep, toolsUsed, startedAt, completedAt,
        completedAt - startedAt⟩
      result.trace
  else
    AgentResponse.success (result.response.getD "")
      ⟨userQuery, result.step, none, toolsUsed, startedAt, completedAt,
        completedAt - startedAt⟩
      result.trace

/-- The initial state built by the entry point: step starts at 1, the
conversation holds the user query, the trace is empty. -/
def initialAgentState (userQuery : String) (maxStep : Nat) : AgentState :=
  ⟨[ChatMessage.human userQuery], userQuery, none, 1, none, maxStep, []⟩

/-- The entry point generalized over the step budget (the source fixes
`maxStep = 3`); also returns the number of gate executions performed.
A rejection of `app.invoke` lands in the entry point's catch
(src/src/main.ts lines 992-1011): the `error` response with the thrown
error's name and message, zero steps and an empty trace. -/
def runAgentWithBudget (llm : LLMOracle) (ex : Executors) (now startedAt completedAt : Nat)
    (userQuery : String) (maxStep : Nat) : AgentResponse × Nat :=
  let r := runLoop llm ex now (maxStep + 1) (initialAgentState userQuery maxStep)
  match r.1 with
  | Except.ok result => (assembleResponse userQuery maxStep startedAt completedAt result, r.2)
  | Except.error e =>
    (AgentResponse.error "An error occurred while processing your request" e.name e.message
      ⟨userQuery, 0, none, [], startedAt, completedAt, completedAt - startedAt⟩ [], r.2)

/-- `getFormattedToolOrAnswerToUserInput` (src/src/main.ts lines
922-1013) with its hard-coded `maxStep = 3`. -/
def getFormattedToolOrAnswerToUserInput (llm : LLMOracle) (ex : Executors)
    (now startedAt completedAt : Nat) (userQuery : String) : AgentResponse :=
  (runAgentWithBudget llm ex now startedAt completedAt userQuery 3).1

/-! ## Specification helper definitions

Named observation shapes, projections and concrete fixtures used by the
theorem statements below. -/

/-- The gate's unknown-tool failure observation. -/
def unknownToolObs (name : String) : JsValue :=
  JsValue.obj [("success", JsValue.bool false), ("error_type", JsValue.str "invalid_input"),
    ("error_message", JsValue.str ("Unknown tool call: " ++ name))]

/-- The gate's schema-failure observation. -/
def invalidSchemaObs : JsValue :=
  JsValue.obj [("success", JsValue.bool false), ("error_type", JsValue.str "invalid_schema"),
    ("error_message", JsValue.str "Schema Validation Failed")]

/-- The gate's executor-fault observation for a thrown message. -/
def runtimeErrorObs (emsg : String) : JsValue :=
  JsValue.obj [("success", JsValue.bool false), ("error_type", JsValue.str "runtime_error"),
    ("error_message", JsValue.str emsg)]

/-- The call-id of an execution trace entry. -/
def traceToolCallId : TraceEntry → Option String
  | TraceEntry.tool d => some d.toolCallId
  | TraceEntry.llm _ => none

def obsErrorTypeOfResult : Except String JsValue → Option String
  | Except.ok v => obsErrorType v
  | Except.error _ => none

/-- A web oracle for runs that never reach the network. -/
def noNetwork : WebOracle := fun _ => WebOutcome.fetchError "network disabled"

/-- A model oracle that always requests one calculator call. -/
def llmAlwaysCalc : LLMOracle := fun _ =>
  ⟨"", [⟨"1", "calculator",
    [("a", JsValue.num 5), ("b", JsValue.num 5), ("operation", JsValue.str "multiply")]⟩]⟩

/-- Calculator call arguments with `a = 9999`. -/
def calcArgs9999 (b : Rat) (op : CalcOp) : JsObject :=
  [("a", JsValue.num 9999), ("b", JsValue.num b), ("operation", JsValue.str (calcOpToString op))]

mutual

/-- A value is inert for the normalizer when no string value in it (at
any depth reachable through object recursion) both starts with a brace
or bracket and parses as JSON. -/
def jsonInertValue : JsValue → Bool
  | JsValue.str s => !(jsonLikeStart s && (jsonParse s).isSome)
  | JsValue.obj fields => jsonInertFields fields
  | _ => true
termination_by structural v => v

/-- `jsonInertValue` over all values of a mapping. -/
def jsonInertFields : JsObject → Bool
  | [] => true
  | (_, v) :: rest => jsonInertValue v && jsonInertFields rest
termination_by structural x => x

end

/-- The doubly-encoded mapping on which normalization is not
idempotent: the outer string parses in the first pass, and only the
second pass parses the stringified array found inside the parsed
object. -/
def c4Input : JsObject := [("k", JsValue.str "\x7b\"a\":\"[true]\"\x7d")]

/-- Distinguishes the once- from the twice-normalized form of
`c4Input`: is the nested field an array? -/
def c4Probe (x : JsObject) : Bool :=
  match x with
  | [(_, JsValue.obj [(_, JsValue.arr _)])] => true
  | _ => false

/-- Values other than strings and objects pass through the normalizer
untouched (arrays and primitives). -/
def jsPassThrough : JsValue → Bool
  | JsValue.str _ => false
  | JsValue.obj _ => false
  | _ => true

/-- The db-query argument mapping whose `where` value is stringified
JSON. -/
def scenarioStringifiedArgs : JsObject :=
  [("table", JsValue.str "candidates"),
   ("columns", JsValue.arr [JsValue.str "name"]),
   ("where", JsValue.str
     "\x7b\"field\":\"name\",\"operator\":\"=\",\"value\":\"Alice Johnson\"\x7d"),
   ("limit", jsInt 1)]

/-- The same argument mapping with the `where` object sent directly. -/
def scenarioDirectArgs : JsObject :=
  [("table", JsValue.str "candidates"),
   ("columns", JsValue.arr [JsValue.str "name"]),
   ("where", JsValue.obj [("field", JsValue.str "name"), ("operator", JsValue.str "="),
     ("value", JsValue.str "Alice Johnson")]),
   ("limit", jsInt 1)]

/-- A 100-character tool name. -/
def longToolName : String := String.mk (List.replicate 100 ('a'))

/-- The gate request with the overlong unknown tool name. -/
def longNameCall : ToolCallReq := ⟨"1", longToolName, []⟩

/-- The not-found message built by the candidates executor. -/
def notFoundMsgCand (input : CandidatesQueryInput) : String :=
  "No candidate found with " ++ candWhereFieldName input.whereClause ++ " = " ++
    candWhereValue input.whereClause

/-- The not-found failure observation of the candidates executor. -/
def notFoundObsCand (input : CandidatesQueryInput) : JsValue :=
  dbFailureObs "candidates" (input.columns.map candColToString) (notFoundMsgCand input)
    "not_found"

/-- The not-found message built by the opportunities executor. -/
def notFoundMsgOpp (input : OpportunitiesQueryInput) : String :=
  "No opportunity found with " ++ oppWhereFieldName input.whereClause ++ " = " ++
    oppWhereValue input.whereClause

/-- The not-found failure observation of the opportunities executor. -/
def notFoundObsOpp (input : OpportunitiesQueryInput) : JsValue :=
  dbFailureObs "opportunities" (input.columns.map oppColToString) (notFoundMsgOpp input)
    "not_found"

/-- A validated candidates query whose long filter value makes the
not-found message exceed the failure schema's 50-character bound. -/
def c9LongInput : CandidatesQueryInput :=
  ⟨[CandCol.name], CandWhere.byName (String.mk (List.replicate 30 ('z'))), 10⟩

/-- A validated candidates query with a short unmatched filter value. -/
def c9ShortInput : CandidatesQueryInput := ⟨[CandCol.name], CandWhere.byName "David", 10⟩

/-- The schema-failure test call (`a` sent as a string). -/
def c2TestCall : ToolCallReq :=
  ⟨"1", "calculator",
   [("a", JsValue.str "5"), ("b", JsValue.num 5), ("operation", JsValue.str "multiply")]⟩

/-- The unknown-tool test call. -/
def c6TestCall : ToolCallReq := ⟨"1", "does_not_exist", []⟩

/-- A calculator failure observation passing `CalculatorFailureSchema`. -/
def c8WitnessObs : JsValue :=
  JsValue.obj [("success", JsValue.bool false), ("operation", JsValue.str "divide"),
    ("error_message", JsValue.str "Division by zero"),
    ("error_type", JsValue.str "invalid_calculation")]

/-- A state whose step has reached the budget. -/
def c3ShortCircuitState : AgentState := ⟨[], "q", none, 3, none, 3, []⟩

/-- A finished-loop state whose trace holds a max-attempts decision. -/
def c3TraceState : AgentState :=
  ⟨[], "q", none, 3, none, 3, [TraceEntry.llm ⟨3, Decision.max_attempts, none, 0⟩]⟩

/-- A tool-call name is gate-safe when the registry property access does
not hit an inherited `Object.prototype` member (the case in which the
gate throws a `TypeError` at `schema.safeParse`). -/
def gateSafeName (name : String) : Bool :=
  match jsObjectAccess TOOL_BY_NAME name with
  | PropAccess.inherited => false
  | _ => true

/-- The content of the tool message a non-throwing gate iteration
produced (`null` when the iteration threw). -/
def gateResultContent (r : Except JsError (ToolMessage × TraceEntry)) : JsValue :=
  match r with
  | Except.ok p => p.1.content
  | Except.error _ => JsValue.null

/-- A call whose name is an inherited `Object.prototype` member: absent
from the registry, yet truthy under both registry property accesses. -/
def protoCall : ToolCallReq := ⟨"1", "toString", []⟩

/-- A state whose batch holds the single prototype-member call. -/
def c1CrashState : AgentState :=
  ⟨[ChatMessage.human "q"], "q", some [protoCall], 1, none, 3, []⟩

/-- A state with a two-call batch of gate-safe names: one valid
calculator call and one genuinely unknown name. -/
def c1WitnessState : AgentState :=
  ⟨[ChatMessage.human "q"], "q",
   some [⟨"1", "calculator",
       [("a", JsValue.num 5), ("b", JsValue.num 5), ("operation", JsValue.str "multiply")]⟩,
     ⟨"2", "does_not_exist", []⟩],
   1, none, 3, []⟩

/-! ## Shared helper lemmas -/

/-- A gate iteration on a gate-safe name completes and keys both its
message and its trace entry to the call's id. -/
theorem processCall_safe (ex : Executors) (now step : Nat) (tc : ToolCallReq)
    (hsafe : gateSafeName tc.name = true) :
    ∃ pair, processCall ex now step tc = Except.ok pair ∧
      pair.1.tool_call_id = tc.id ∧ traceToolCallId pair.2 = some tc.id := by
  unfold processCall
  cases h1 : jsObjectAccess TOOL_BY_NAME tc.name with
  | inherited => rw [gateSafeName, h1] at hsafe; cases hsafe
  | undef => exact ⟨_, rfl, rfl, rfl⟩
  | own tid =>
    have h2 : jsObjectAccess TOOL_INPUT_SCHEMAS tc.name = PropAccess.own tid := h1
    rw [h2]
    repeat'
      first
        | exact ⟨_, rfl, rfl, rfl⟩
        | dsimp only
        | split

/-- The batch loop on gate-safe names completes with one pair per call,
each keyed to its call's id. -/
theorem processCalls_ok (ex : Executors) (now step : Nat) :
    ∀ (calls : List ToolCallReq), calls.all (fun tc => gateSafeName tc.name) = true →
    ∃ pairs, processCalls ex now step calls = Except.ok pairs ∧
      pairs.map (fun p => p.1.tool_call_id) = calls.map ToolCallReq.id ∧
      pairs.map (fun p => traceToolCallId p.2) = calls.map (fun c => some c.id) := by
  intro calls
  induction calls with
  | nil => intro _; exact ⟨[], rfl, rfl, rfl⟩
  | cons tc rest ih =>
    intro h
    rw [List.all_cons, Bool.and_eq_true] at h
    obtain ⟨pair, hpc, hid1, hid2⟩ := processCall_safe ex now step tc h.1
    obtain ⟨pairs, hps, hm1, hm2⟩ := ih h.2
    refine ⟨pair :: pairs, ?_, ?_, ?_⟩
    · rw [processCalls, hpc, hps]
    · rw [List.map_cons, List.map_cons, hid1, hm1]
    · rw [List.map_cons, List.map_cons, hid2, hm2]

/-- Every state update the gate returns has `step = state.step + 1`. -/
theorem gate_ok_step {ex : Executors} {now : Nat} {s : AgentState} {gu : GateUpdate}
    (h : verifyAndExecuteTool ex now s = Except.ok gu) : gu.step = s.step + 1 := by
  rw [verifyAndExecuteTool] at h
  revert h
  cases hm : processCalls ex now s.step (s.tool_calls.getD []) with
  | error e => intro h; cases h
  | ok pairs => intro h; cases h; rfl

theorem intent_step_none (llm : LLMOracle) (now : Nat) (s : AgentState) :
    (getToolIntent llm now s).step = none := by
  unfold getToolIntent
  repeat' first | rfl | split | dsimp only

theorem applyIntent_intent_step (llm : LLMOracle) (now : Nat) (s : AgentState) :
    (applyIntent s (getToolIntent llm now s)).step = s.step := by
  simp [applyIntent, intent_step_none]

theorem route_gate_lt (s : AgentState) :
    routeAfterClassification s = RouteTarget.gateRoute → s.step < s.maxStep := by
  unfold routeAfterClassification
  intro h
  split at h
  · cases h
  · split at h
    · cases h
    · rename_i hge
      omega

/-- The loop performs at most `maxStep - step` gate passes from any
state, for any fuel — a gate pass only happens when `step < maxStep`,
and each completed pass increments the step. -/
theorem runLoop_count_le (llm : LLMOracle) (ex : Executors) (now : Nat) :
    ∀ (fuel : Nat) (s : AgentState),
      (runLoop llm ex now fuel s).2 ≤ s.maxStep - s.step := by
  intro fuel
  induction fuel with
  | zero => intro s; exact Nat.zero_le _
  | succ f ih =>
    intro s
    rw [runLoop]
    dsimp only
    cases hroute : routeAfterClassification (applyIntent s (getToolIntent llm now s)) with
    | endRoute => exact Nat.zero_le _
    | gateRoute =>
      dsimp only
      have hlt := route_gate_lt _ hroute
      rw [applyIntent_intent_step] at hlt
      have hmax : (applyIntent s (getToolIntent llm now s)).maxStep = s.maxStep := rfl
      rw [hmax] at hlt
      cases hg : verifyAndExecuteTool ex now (applyIntent s (getToolIntent llm now s)) with
      | error e => dsimp only; omega
      | ok gu =>
        dsimp only
        have hIH := ih (applyGate (applyIntent s (getToolIntent llm now s)) gu)
        have e1 : (applyGate (applyIntent s (getToolIntent llm now s)) gu).step
            = s.step + 1 := by
          show gu.step = s.step + 1
          rw [gate_ok_step hg, applyIntent_intent_step]
        have e2 : (applyGate (applyIntent s (getToolIntent llm now s)) gu).maxStep
            = s.maxStep := rfl
        rw [e1, e2] at hIH
        omega

mutual

theorem inert_value_fix : ∀ (v : JsValue), jsonInertValue v = true →
    parseStringifiedJsonValue v = v
  | JsValue.str s, h => by
    rw [jsonInertValue] at h
    rw [parseStringifiedJsonValue]
    cases hls : jsonLikeStart s with
    | false => rw [if_neg (by simp [hls])]
    | true =>
      rw [hls] at h
      simp only [Bool.true_and, Bool.not_eq_true'] at h
      rw [if_pos rfl]
      cases hp : jsonParse s with
      | some v => rw [hp] at h; cases h
      | none => rfl
  | JsValue.obj fields, h => by
    rw [jsonInertValue] at h
    rw [parseStringifiedJsonValue, inert_fields_fix fields h]
  | JsValue.num q, _ => rfl
  | JsValue.bool b, _ => rfl
  | JsValue.null, _ => rfl
  | JsValue.arr xs, _ => rfl
termination_by structural v => v

theorem inert_fields_fix : ∀ (x : JsObject), jsonInertFields x = true →
    parseStringifiedJsonFields x = x
  | [], _ => rfl
  | (k, v) :: rest, h => by
    rw [jsonInertFields] at h
    rw [Bool.and_eq_true] at h
    rw [parseStringifiedJsonFields, inert_value_fix v h.1, inert_fields_fix rest h.2]
termination_by structural x => x

end

theorem mem_psjf {x : JsObject} {k : String} {v : JsValue} (h : (k, v) ∈ x) :
    (k, parseStringifiedJsonValue v) ∈ parseStringifiedJsonFields x := by
  induction x with
  | nil => cases h
  | cons p rest ih =>
    obtain ⟨kp, vp⟩ := p
    rw [parseStringifiedJsonFields]
    rcases List.mem_cons.mp h with heq | hmem
    · rw [Prod.mk.injEq] at heq
      obtain ⟨h1, h2⟩ := heq
      subst h1; subst h2
      exact List.mem_cons_self _ _
    · exact List.mem_cons_of_mem _ (ih hmem)

theorem keys_psjf (x : JsObject) :
    (parseStringifiedJsonFields x).map Prod.fst = x.map Prod.fst := by
  induction x with
  | nil => rfl
  | cons p rest ih =>
    obtain ⟨k, v⟩ := p
    simp [parseStringifiedJsonFields, ih]

theorem vStrLenBetween_bound {v : JsValue} {key : String} {lo hi : Nat}
    (h : vStrLenBetween v key lo hi = []) :
    ∀ s : String, getField v key = some (JsValue.str s) → lo ≤ s.length ∧ s.length ≤ hi := by
  intro s hs
  rw [vStrLenBetween, hs] at h
  dsimp only at h
  by_cases hb : lo ≤ s.length ∧ s.length ≤ hi
  · exact hb
  · rw [if_neg hb] at h; cases h

theorem obsErrorMessage_getField {v : JsValue} {s : String} (h : obsErrorMessage v = some s) :
    getField v ("error_message") = some (JsValue.str s) := by
  rw [obsErrorMessage] at h
  revert h
  cases hg : getField v ("error_message") with
  | none => intro h; cases h
  | some w =>
    cases w with
    | str s2 => intro h; cases h; rfl
    | num q => intro h; cases h
    | bool b => intro h; cases h
    | null => intro h; cases h
    | arr xs => intro h; cases h
    | obj fs => intro h; cases h

theorem candCols_all_enum : ∀ (cols : List CandCol),
    ((cols.map candColToString).map JsValue.str).all (fun e =>
      match e with
      | JsValue.str s => candidateColumnEnum.contains s
      | _ => false) = true := by
  intro cols
  induction cols with
  | nil => rfl
  | cons c rest ih =>
    rw [List.map_cons, List.map_cons, List.all_cons, ih]
    cases c <;> rfl

theorem oppCols_all_enum : ∀ (cols : List OppCol),
    ((cols.map oppColToString).map JsValue.str).all (fun e =>
      match e with
      | JsValue.str s => opportunityColumnEnum.contains s
      | _ => false) = true := by
  intro cols
  induction cols with
  | nil => rfl
  | cons c rest ih =>
    rw [List.map_cons, List.map_cons, List.all_cons, ih]
    cases c <;> rfl

theorem notFoundMsgCand_len (input : CandidatesQueryInput) :
    (notFoundMsgCand input).length =
      24 + (candWhereFieldName input.whereClause).length + 3 +
        (candWhereValue input.whereClause).length := by
  simp [notFoundMsgCand, String.length_append]
  have hA : ("No candidate found with ").length = 24 := rfl
  have hB : (" = ").length = 3 := rfl
  omega

theorem notFoundMsgOpp_len (input : OpportunitiesQueryInput) :
    (notFoundMsgOpp input).length =
      26 + (oppWhereFieldName input.whereClause).length + 3 +
        (oppWhereValue input.whereClause).length := by
  simp [notFoundMsgOpp, String.length_append]
  have hA : ("No opportunity found with ").length = 26 := rfl
  have hB : (" = ").length = 3 := rfl
  omega

theorem checkDbFailure_notFoundCand (input : CandidatesQueryInput)
    (hcols : input.columns ≠ [])
    (hlen : (notFoundMsgCand input).length ≤ 50) :
    checkDbFailure "candidates" candidateColumnEnum (notFoundObsCand input) = [] := by
  rw [checkDbFailure]
  have e1 : vBoolLiteral (notFoundObsCand input) ("success") false = [] := rfl
  have e2 : vStrLiteral (notFoundObsCand input) ("table") "candidates" = [] := rfl
  have e3 : vEnumArrayMin1 (notFoundObsCand input) ("columns") candidateColumnEnum = [] := by
    rw [vEnumArrayMin1]
    rw [show getField (notFoundObsCand input) ("columns") =
      some (JsValue.arr ((input.columns.map candColToString).map JsValue.str)) from rfl]
    dsimp only
    rw [if_pos]
    constructor
    · exact candCols_all_enum input.columns
    · simp [List.length_map]
      exact List.length_pos.mpr hcols
  have e4 : vStrLenBetween (notFoundObsCand input) ("error_message") 5 50 = [] := by
    rw [vStrLenBetween]
    rw [show getField (notFoundObsCand input) ("error_message") =
      some (JsValue.str (notFoundMsgCand input)) from rfl]
    dsimp only
    rw [if_pos]
    have h24 := notFoundMsgCand_len input
    constructor
    · omega
    · exact hlen
  have e5 : vEnum (notFoundObsCand input) ("error_type")
      ["invalid_input", "invalid_schema", "runtime_error", "not_found"] = [] := rfl
  rw [e1, e2, e3, e4, e5]
  rfl

theorem checkDbFailure_notFoundOpp (input : OpportunitiesQueryInput)
    (hcols : input.columns ≠ [])
    (hlen : (notFoundMsgOpp input).length ≤ 50) :
    checkDbFailure "opportunities" opportunityColumnEnum (notFoundObsOpp input) = [] := by
  rw [checkDbFailure]
  have e1 : vBoolLiteral (notFoundObsOpp input) ("success") false = [] := rfl
  have e2 : vStrLiteral (notFoundObsOpp input) ("table") "opportunities" = [] := rfl
  have e3 : vEnumArrayMin1 (notFoundObsOpp input) ("columns") opportunityColumnEnum = [] := by
    rw [vEnumArrayMin1]
    rw [show getField (notFoundObsOpp input) ("columns") =
      some (JsValue.arr ((input.columns.map oppColToString).map JsValue.str)) from rfl]
    dsimp only
    rw [if_pos]
    constructor
    · exact oppCols_all_enum input.columns
    · simp [List.length_map]
      exact List.length_pos.mpr hcols
  have e4 : vStrLenBetween (notFoundObsOpp input) ("error_message") 5 50 = [] := by
    rw [vStrLenBetween]
    rw [show getField (notFoundObsOpp input) ("error_message") =
      some (JsValue.str (notFoundMsgOpp input)) from rfl]
    dsimp only
    rw [if_pos]
    have h26 := notFoundMsgOpp_len input
    constructor
    · omega
    · exact hlen
  have e5 : vEnum (notFoundObsOpp input) ("error_type")
      ["invalid_input", "invalid_schema", "runtime_error", "not_found"] = [] := rfl
  rw [e1, e2, e3, e4, e5]
  rfl

theorem craftDbFailureObservation_ok {table : String} {enumCols cols : List String}
    {msg typ : String}
    (hcheck : checkDbFailure table enumCols (dbFailureObs table cols msg typ) = []) :
    craftDbFailureObservation table enumCols cols msg typ =
      Except.ok (dbFailureObs table cols msg typ) := by
  rw [craftDbFailureObservation, zodParse, hcheck]

theorem dbCand_notFound (input : CandidatesQueryInput)
    (hcols : input.columns ≠ [])
    (hfilter : mockCandidates.filter (candMatches input.whereClause) = [])
    (hlen : (notFoundMsgCand input).length ≤ 50) :
    dbQueryCandidatesTool input = Except.ok (notFoundObsCand input) := by
  have hcheck := checkDbFailure_notFoundCand input hcols hlen
  rw [dbQueryCandidatesTool]
  dsimp only
  rw [hfilter]
  simp only [List.length_nil, if_pos]
  rw [show ("No candidate found with " ++ candWhereFieldName input.whereClause ++ " = " ++
    candWhereValue input.whereClause) = notFoundMsgCand input from rfl]
  have hcraft : craftDbFailureObservation "candidates" candidateColumnEnum
      (input.columns.map candColToString) (notFoundMsgCand input) "not_found" =
      Except.ok (dbFailureObs "candidates" (input.columns.map candColToString)
        (notFoundMsgCand input) "not_found") :=
    craftDbFailureObservation_ok hcheck
  rw [hcraft]
  rfl

theorem dbOpp_notFound (input : OpportunitiesQueryInput)
    (hcols : input.columns ≠ [])
    (hfilter : mockOpportunities.filter (oppMatches input.whereClause) = [])
    (hlen : (notFoundMsgOpp input).length ≤ 50) :
    dbQueryOpportunitiesTool input = Except.ok (notFoundObsOpp input) := by
  have hcheck := checkDbFailure_notFoundOpp input hcols hlen
  rw [dbQueryOpportunitiesTool]
  dsimp only
  rw [hfilter]
  simp only [List.length_nil, if_pos]
  rw [show ("No opportunity found with " ++ oppWhereFieldName input.whereClause ++ " = " ++
    oppWhereValue input.whereClause) = notFoundMsgOpp input from rfl]
  have hcraft : craftDbFailureObservation "opportunities" opportunityColumnEnum
      (input.columns.map oppColToString) (notFoundMsgOpp input) "not_found" =
      Except.ok (dbFailureObs "opportunities" (input.columns.map oppColToString)
        (notFoundMsgOpp input) "not_found") :=
    craftDbFailureObservation_ok hcheck
  rw [hcraft]
  rfl

/-! ## Claim theorems -/

/-- Counterexample to C1 as stated: a one-call batch whose tool name is
the inherited `Object.prototype` member `toString` makes both registry
guards truthy, and `schema.safeParse` — outside any try/catch — throws a
`TypeError` past the gate's boundary: the gate returns no state update
at all, so the batch of one call yields zero messages and zero trace
entries. -/
theorem c1_gate_raises_counterexample :
    (c1CrashState.tool_calls.getD []).length = 1 ∧
    verifyAndExecuteTool (realExecutors noNetwork) 0 c1CrashState =
      Except.error typeErrorSafeParse :=
  ⟨rfl, rfl⟩

/-- C1 (amended): for every batch none of whose call names collides
with an inherited `Object.prototype` member, and for every state and
executor assignment, the Gate never raises past its boundary: it
returns a state update in which each requested call has exactly one
tool-result message keyed to that call's id and exactly one execution
trace entry carrying that call's id, so both lists have exactly as many
elements as there are requested calls.  A prototype-member name (such
as `toString`) instead makes the gate throw a `TypeError` with no
messages or trace entries. -/
theorem c1_gate_one_message_and_one_trace_entry_per_call
    (ex : Executors) (now : Nat) (state : AgentState)
    (hsafe : (state.tool_calls.getD []).all (fun tc => gateSafeName tc.name) = true) :
    ∃ gu, verifyAndExecuteTool ex now state = Except.ok gu ∧
      gu.messages.length = (state.tool_calls.getD []).length ∧
      gu.trace.length = (state.tool_calls.getD []).length ∧
      gu.messages.map ToolMessage.tool_call_id =
        (state.tool_calls.getD []).map ToolCallReq.id ∧
      gu.trace.map traceToolCallId =
        (state.tool_calls.getD []).map (fun c => some c.id) := by
  obtain ⟨pairs, hps, hm1, hm2⟩ :=
    processCalls_ok ex now state.step (state.tool_calls.getD []) hsafe
  have hlen : pairs.length = (state.tool_calls.getD []).length := by
    have := congrArg List.length hm1
    simpa [List.length_map] using this
  refine ⟨⟨pairs.map Prod.fst, none, state.step + 1, pairs.map Prod.snd⟩, ?_, ?_, ?_, ?_, ?_⟩
  · rw [verifyAndExecuteTool, hps]
  · simp [List.length_map, hlen]
  · simp [List.length_map, hlen]
  · show (pairs.map Prod.fst).map ToolMessage.tool_call_id = _
    rw [List.map_map]
    exact hm1
  · show (pairs.map Prod.snd).map traceToolCallId = _
    rw [List.map_map]
    exact hm2

/-- Witness for the amended C1 at a two-call batch (a valid calculator
call and a genuinely unknown name). -/
theorem c1_gate_witness :
    (c1WitnessState.tool_calls.getD []).all (fun tc => gateSafeName tc.name) = true ∧
    (∃ gu, verifyAndExecuteTool (realExecutors noNetwork) 0 c1WitnessState = Except.ok gu ∧
      gu.messages.length = (c1WitnessState.tool_calls.getD []).length ∧
      gu.trace.length = (c1WitnessState.tool_calls.getD []).length ∧
      gu.messages.map ToolMessage.tool_call_id =
        (c1WitnessState.tool_calls.getD []).map ToolCallReq.id ∧
      gu.trace.map traceToolCallId =
        (c1WitnessState.tool_calls.getD []).map (fun c => some c.id)) :=
  ⟨rfl,
   c1_gate_one_message_and_one_trace_entry_per_call (realExecutors noNetwork) 0
     c1WitnessState rfl⟩

/-- C2: For every requested call to a registered tool whose normalized
arguments fail the tool's input schema, the Gate appends the message
`{success:false, error_type:"invalid_schema", error_message:"Schema
Validation Failed"}`, records the serialized validation issues in the
trace entry's `validationError` with `inputValid:false`, and its result
is the same for every executor assignment — the executor is never
invoked. -/
theorem c2_schema_failure_observation_and_no_executor_invocation
    (ex : Executors) (now step : Nat) (tc : ToolCallReq) (tid : ToolId)
    (issues : List ZodIssue)
    (hTool : assocLookup TOOL_BY_NAME tc.name = some tid)
    (hVal : toolSafeParse tid (parseStringifiedJsonFields tc.args) = Except.error issues) :
    processCall ex now step tc = Except.ok
      (⟨tc.id, invalidSchemaObs⟩,
       TraceEntry.tool ⟨step, tc.name, tc.id, JsValue.obj (parseStringifiedJsonFields tc.args),
         false, some (stringifyIssues issues), invalidSchemaObs, false, now, 0⟩) ∧
    (∀ ex2 : Executors, processCall ex2 now step tc = processCall ex now step tc) ∧
    obsSuccess invalidSchemaObs = some false := by
  have hAcc : jsObjectAccess TOOL_BY_NAME tc.name = PropAccess.own tid := by
    rw [jsObjectAccess, hTool]
  have hAcc2 : jsObjectAccess TOOL_INPUT_SCHEMAS tc.name = PropAccess.own tid := hAcc
  refine ⟨?_, ?_, rfl⟩
  · simp only [processCall, hAcc, hAcc2, hVal, invalidSchemaObs]
  · intro ex2
    simp only [processCall, hAcc, hAcc2, hVal]

/-- Witness for C2 at the test's concrete call (`a` sent as the string
`"5"`). -/
theorem c2_schema_failure_witness :
    (assocLookup TOOL_BY_NAME ("calculator") = some ToolId.calculator ∧
     toolSafeParse ToolId.calculator (parseStringifiedJsonFields c2TestCall.args) =
       Except.error [⟨["a"], "Invalid input: expected number"⟩]) ∧
    obsErrorType (gateResultContent (processCall (realExecutors noNetwork) 0 1 c2TestCall)) =
      some "invalid_schema" ∧
    obsSuccess (gateResultContent (processCall (realExecutors noNetwork) 0 1 c2TestCall)) =
      some false := by
  refine ⟨⟨rfl, rfl⟩, ?_⟩
  have h := (c2_schema_failure_observation_and_no_executor_invocation
    (realExecutors noNetwork) 0 1 c2TestCall ToolId.calculator
    [⟨["a"], "Invalid input: expected number"⟩] rfl rfl).1
  rw [h]
  exact ⟨rfl, rfl⟩

/-- C3: (1) For every budget `N ≥ 1`, a run with `maxStep = N` performs
at most N gate passes (for any oracle, executor assignment and fuel via
`runLoop_count_le`; here stated at the entry point).  (2) Whenever the
classification step runs with `step ≥ maxStep` it short-circuits to
exactly the max-attempts decision trace entry plus the terminal response
string, identically for every model oracle — the model is not consulted.
(3) Whenever the finished loop's trace holds a max-attempts decision,
the assembled response has status `max_attempts_reached`. -/
theorem c3_step_budget_and_max_attempts :
    (∀ (llm : LLMOracle) (ex : Executors) (now startedAt completedAt : Nat) (q : String)
      (N : Nat), 1 ≤ N →
      (runAgentWithBudget llm ex now startedAt completedAt q N).2 ≤ N) ∧
    (∀ (llm llm2 : LLMOracle) (now : Nat) (s : AgentState), s.step ≥ s.maxStep →
      getToolIntent llm now s =
        { response := some "Max attempts reached without final answer",
          trace := [TraceEntry.llm ⟨s.step, Decision.max_attempts, none, now⟩] } ∧
      getToolIntent llm now s = getToolIntent llm2 now s) ∧
    (∀ (q : String) (N startedAt completedAt : Nat) (result : AgentState),
      hitMaxAttempts result.trace = true →
      statusOf (assembleResponse q N startedAt completedAt result) =
        "max_attempts_reached") := by
  refine ⟨?_, ?_, ?_⟩
  · intro llm ex now startedAt completedAt q N hN
    have h : (runLoop llm ex now (N + 1) (initialAgentState q N)).2 ≤ N - 1 :=
      runLoop_count_le llm ex now (N + 1) (initialAgentState q N)
    have hcount : (runAgentWithBudget llm ex now startedAt completedAt q N).2 =
        (runLoop llm ex now (N + 1) (initialAgentState q N)).2 := by
      rw [runAgentWithBudget]
      cases (runLoop llm ex now (N + 1) (initialAgentState q N)).1 <;> rfl
    rw [hcount]
    omega
  · intro llm llm2 now s h
    constructor
    · unfold getToolIntent
      rw [if_pos h]
    · unfold getToolIntent
      rw [if_pos h, if_pos h]
  · intro q N startedAt completedAt result h
    simp [assembleResponse, h, statusOf]

/-- Witness for C3: budget 2 with an oracle that always requests a
calculator call; the short-circuit at a concrete budget-reached state;
the assembler on a trace holding a max-attempts entry; and the evaluated
end-to-end run of the entry point reaching `max_attempts_reached`. -/
theorem c3_step_budget_witness :
    ((1 : Nat) ≤ 2 ∧
     (runAgentWithBudget llmAlwaysCalc (realExecutors noNetwork) 0 0 0 "q" 2).2 ≤ 2) ∧
    (c3ShortCircuitState.step ≥ c3ShortCircuitState.maxStep ∧
     getToolIntent llmAlwaysCalc 0 c3ShortCircuitState =
       { response := some "Max attempts reached without final answer",
         trace := [TraceEntry.llm ⟨3, Decision.max_attempts, none, 0⟩] }) ∧
    (hitMaxAttempts c3TraceState.trace = true ∧
     statusOf (assembleResponse "q" 3 0 0 c3TraceState) = "max_attempts_reached") ∧
    statusOf (getFormattedToolOrAnswerToUserInput llmAlwaysCalc (realExecutors noNetwork)
      0 0 0 "q") = "max_attempts_reached" := by
  refine ⟨⟨by decide, ?_⟩, ⟨by decide, ?_⟩, ⟨rfl, ?_⟩, rfl⟩
  · exact c3_step_budget_and_max_attempts.1 llmAlwaysCalc (realExecutors noNetwork) 0 0 0
      "q" 2 (by decide)
  · exact (c3_step_budget_and_max_attempts.2.1 llmAlwaysCalc llmAlwaysCalc 0
      c3ShortCircuitState (by decide)).1
  · exact c3_step_budget_and_max_attempts.2.2 "q" 3 0 0 c3TraceState rfl

/-- Counterexample to C4 as stated: on the doubly-encoded mapping
`{k: "{\"a\":\"[true]\"}"}` the first normalization parses the outer
string but does not recurse into the parsed result, while a second
normalization parses the inner stringified array, so
`normalize (normalize x) ≠ normalize x`. -/
theorem c4_normalization_not_idempotent_counterexample :
    parseStringifiedJsonFields (parseStringifiedJsonFields c4Input) ≠
      parseStringifiedJsonFields c4Input := by
  intro h
  have h2 := congrArg c4Probe h
  rw [show c4Probe (parseStringifiedJsonFields (parseStringifiedJsonFields c4Input)) = true
      from rfl,
    show c4Probe (parseStringifiedJsonFields c4Input) = false from rfl] at h2
  cases h2

/-- C4 (amended): normalization is a no-op — hence idempotent — on
mappings none of whose string values (at any depth reachable through
object recursion) both starts with a brace or bracket and parses as
JSON; in general a second pass can parse stringified JSON uncovered
inside a value parsed by the first pass. -/
theorem c4_normalization_idempotent_on_inert_mappings (x : JsObject)
    (h : jsonInertFields x = true) :
    parseStringifiedJsonFields x = x ∧
    parseStringifiedJsonFields (parseStringifiedJsonFields x) =
      parseStringifiedJsonFields x := by
  have hfix := inert_fields_fix x h
  exact ⟨hfix, by rw [hfix]; exact hfix⟩

/-- Witness for the amended C4 at a mapping whose brace-initial string
fails to parse. -/
theorem c4_inert_idempotence_witness :
    jsonInertFields [("k", JsValue.str "\x7bnot json")] = true ∧
    parseStringifiedJsonFields (parseStringifiedJsonFields
      [("k", JsValue.str "\x7bnot json")]) =
      parseStringifiedJsonFields [("k", JsValue.str "\x7bnot json")] :=
  ⟨rfl,
   (c4_normalization_idempotent_on_inert_mappings [("k", JsValue.str "\x7bnot json")] rfl).2⟩

/-- C5: The Argument Normalizer is pure and total (a total Lean
function), preserves the key sequence, and per value: a string starting
with a brace or bracket becomes its parse when `JSON.parse` succeeds and
stays the original string otherwise; an object value is recursed into;
arrays and primitives pass through unchanged.  In particular a
stringified `{x:1}` argument normalizes identically to the directly-sent
object, and the stringified db `where` argument validates against the
candidates input schema after normalization. -/
theorem c5_normalizer_total_characterization (x : JsObject) :
    ((parseStringifiedJsonFields x).map Prod.fst = x.map Prod.fst) ∧
    (∀ (k s : String), (k, JsValue.str s) ∈ x → jsonLikeStart s = true →
      (k, (jsonParse s).getD (JsValue.str s)) ∈ parseStringifiedJsonFields x) ∧
    (∀ (k s : String), (k, JsValue.str s) ∈ x → jsonLikeStart s = false →
      (k, JsValue.str s) ∈ parseStringifiedJsonFields x) ∧
    (∀ (k : String) (fields : JsObject), (k, JsValue.obj fields) ∈ x →
      (k, JsValue.obj (parseStringifiedJsonFields fields)) ∈ parseStringifiedJsonFields x) ∧
    (∀ (k : String) (v : JsValue), (k, v) ∈ x → jsPassThrough v = true →
      (k, v) ∈ parseStringifiedJsonFields x) ∧
    parseStringifiedJsonFields [("nested", JsValue.str "\x7b\"x\":1\x7d")] =
      parseStringifiedJsonFields [("nested", JsValue.obj [("x", jsInt 1)])] ∧
    parseStringifiedJsonFields scenarioStringifiedArgs =
      parseStringifiedJsonFields scenarioDirectArgs ∧
    (CandidatesInputQuerySchema (parseStringifiedJsonFields scenarioStringifiedArgs)).isOk
      = true := by
  refine ⟨keys_psjf x, ?_, ?_, ?_, ?_, rfl, rfl, rfl⟩
  · intro k s hmem hls
    have h := mem_psjf hmem
    rw [show parseStringifiedJsonValue (JsValue.str s) = (jsonParse s).getD (JsValue.str s) by
      rw [parseStringifiedJsonValue, if_pos hls]] at h
    exact h
  · intro k s hmem hls
    have h := mem_psjf hmem
    rw [show parseStringifiedJsonValue (JsValue.str s) = JsValue.str s by
      rw [parseStringifiedJsonValue, if_neg (by simp [hls])]] at h
    exact h
  · intro k fields hmem
    exact mem_psjf hmem
  · intro k v hmem hpt
    have h := mem_psjf hmem
    rw [show parseStringifiedJsonValue v = v by
      cases v <;> first | rfl | (rw [jsPassThrough] at hpt; cases hpt)] at h
    exact h

/-- Witness for C5 at a bracket-initial string value that parses. -/
theorem c5_normalizer_witness :
    (("w", JsValue.str "[true]") ∈ ([("w", JsValue.str "[true]")] : JsObject) ∧
     jsonLikeStart "[true]" = true) ∧
    ("w", (jsonParse "[true]").getD (JsValue.str "[true]")) ∈
      parseStringifiedJsonFields [("w", JsValue.str "[true]")] :=
  ⟨⟨List.mem_singleton.mpr rfl, rfl⟩,
   (c5_normalizer_total_characterization [("w", JsValue.str "[true]")]).2.1 "w" "[true]"
     (List.mem_singleton.mpr rfl) rfl⟩

/-- Counterexample to C6 as stated: `toString` is absent from the
registry (not an own key), yet the Gate does not produce the
`invalid_input` observation and does not continue to the next call —
the inherited `Object.prototype` member makes both registry guards
truthy and the gate throws a `TypeError` at `schema.safeParse`. -/
theorem c6_unknown_tool_counterexample :
    assocLookup TOOL_BY_NAME (protoCall.name) = none ∧
    processCall (realExecutors noNetwork) 0 1 protoCall = Except.error typeErrorSafeParse :=
  ⟨rfl, rfl⟩

/-- C6 (amended): for every requested call whose tool name resolves to
`undefined` under the registry property access — absent as an own key
and not an inherited `Object.prototype` member — the Gate produces the
observation `{success:false, error_type:"invalid_input",
error_message:"Unknown tool call: <name>"}`, records a trace entry with
`inputValid:false`, appends a tool-result message whose content's
`success` is false, and the batch continues with the remaining calls;
for inherited member names the gate instead throws a `TypeError`. -/
theorem c6_unknown_tool_failure_observation
    (ex : Executors) (now step : Nat) (tc : ToolCallReq) (rest : List ToolCallReq)
    (state : AgentState)
    (hUndef : jsObjectAccess TOOL_BY_NAME tc.name = PropAccess.undef) :
    processCall ex now step tc = Except.ok
      (⟨tc.id, unknownToolObs tc.name⟩,
       TraceEntry.tool ⟨step, tc.name, tc.id, JsValue.obj tc.args, false,
         some "Unknown tool", unknownToolObs tc.name, false, now, 0⟩) ∧
    getField (unknownToolObs tc.name) ("success") = some (JsValue.bool false) ∧
    verifyAndExecuteTool ex now { state with tool_calls := some (tc :: rest) } =
      (match verifyAndExecuteTool ex now { state with tool_calls := some rest } with
       | Except.ok gu => Except.ok
           ⟨(⟨tc.id, unknownToolObs tc.name⟩ : ToolMessage) :: gu.messages, none, gu.step,
            TraceEntry.tool ⟨state.step, tc.name, tc.id, JsValue.obj tc.args, false,
              some "Unknown tool", unknownToolObs tc.name, false, now, 0⟩ :: gu.trace⟩
       | Except.error e => Except.error e) := by
  have hpc : ∀ st : Nat, processCall ex now st tc = Except.ok
      (⟨tc.id, unknownToolObs tc.name⟩,
       TraceEntry.tool ⟨st, tc.name, tc.id, JsValue.obj tc.args, false,
         some "Unknown tool", unknownToolObs tc.name, false, now, 0⟩) := by
    intro st
    simp only [processCall, hUndef, unknownToolObs]
  refine ⟨hpc step, rfl, ?_⟩
  rw [verifyAndExecuteTool, verifyAndExecuteTool]
  dsimp only
  simp only [Option.getD_some]
  simp only [processCalls]
  rw [hpc state.step]
  cases hps : processCalls ex now state.step rest with
  | error e => rfl
  | ok pairs => simp [List.map_cons]

/-- Witness for the amended C6 at the test's `does_not_exist` call
(absent as an own key and not a prototype member). -/
theorem c6_unknown_tool_witness :
    (jsObjectAccess TOOL_BY_NAME ("does_not_exist") = PropAccess.undef) ∧
    obsErrorMessage (gateResultContent (processCall (realExecutors noNetwork) 0 1 c6TestCall)) =
      some "Unknown tool call: does_not_exist" ∧
    obsSuccess (gateResultContent (processCall (realExecutors noNetwork) 0 1 c6TestCall)) =
      some false := by
  refine ⟨rfl, ?_⟩
  have h := (c6_unknown_tool_failure_observation (realExecutors noNetwork) 0 1 c6TestCall []
    (initialAgentState "q" 3) rfl).1
  rw [h]
  exact ⟨rfl, rfl⟩

/-- C7: The step counter starts at 1, every state update the Gate
returns has `step = state.step + 1` regardless of how many calls are in
the batch or how they fail, and the classification step never returns a
step value. -/
theorem c7_step_counter_increment_only_in_gate :
    (∀ (ex : Executors) (now : Nat) (state : AgentState) (gu : GateUpdate),
      verifyAndExecuteTool ex now state = Except.ok gu → gu.step = state.step + 1) ∧
    (∀ (llm : LLMOracle) (now : Nat) (state : AgentState),
      (getToolIntent llm now state).step = none) ∧
    (∀ (q : String) (N : Nat), (initialAgentState q N).step = 1) := by
  exact ⟨fun ex now state gu h => gate_ok_step h, intent_step_none, fun q N => rfl⟩

/-- Witness for C7 at a state with an empty batch: the gate returns the
update with step 2 = 1 + 1. -/
theorem c7_step_counter_witness :
    verifyAndExecuteTool (realExecutors noNetwork) 0 (initialAgentState "q" 3) =
      Except.ok ⟨[], none, 2, []⟩ ∧
    (2 : Nat) = (initialAgentState "q" 3).step + 1 :=
  ⟨rfl,
   c7_step_counter_increment_only_in_gate.1 (realExecutors noNetwork) 0
     (initialAgentState "q" 3) ⟨[], none, 2, []⟩ rfl⟩

/-- Counterexample to C8 as stated: a 100-character unknown tool name
makes the Gate's failure observation carry the 119-character message
`Unknown tool call: aaa…`, exceeding the claimed 100-character bound. -/
theorem c8_error_message_bound_counterexample :
    obsSuccess (gateResultContent (processCall (realExecutors noNetwork) 0 1 longNameCall))
      = some false ∧
    100 < ((obsErrorMessage (gateResultContent
      (processCall (realExecutors noNetwork) 0 1 longNameCall))).getD "").length :=
  ⟨rfl, by decide⟩

/-- C8 (amended): failure observations validated against the tools'
failure output schemas respect the bound — `error_message` is at most
100 characters under the calculator and web failure schemas and at most
50 under the db failure schema — and the Gate's fixed schema-failure
message is within 100 characters; but the Gate's own unknown-tool and
executor-fault branches interpolate unbounded text (the tool name, the
thrown message) and can exceed 100 characters. -/
theorem c8_schema_validated_error_message_bounds :
    (∀ (v : JsValue) (s : String), checkCalculatorFailure v = [] →
      obsErrorMessage v = some s → s.length ≤ 100) ∧
    (∀ (v : JsValue) (s : String), checkWebFailure v = [] →
      obsErrorMessage v = some s → s.length ≤ 100) ∧
    (∀ (table : String) (enumCols : List String) (v : JsValue) (s : String),
      checkDbFailure table enumCols v = [] → obsErrorMessage v = some s →
      s.length ≤ 50) ∧
    ((obsErrorMessage invalidSchemaObs).getD "").length ≤ 100 := by
  refine ⟨?_, ?_, ?_, by decide⟩
  · intro v s hchk hmsg
    simp only [checkCalculatorFailure, List.append_eq_nil, and_assoc] at hchk
    exact (vStrLenBetween_bound hchk.2.2.2.2.1 s (obsErrorMessage_getField hmsg)).2
  · intro v s hchk hmsg
    simp only [checkWebFailure, List.append_eq_nil, and_assoc] at hchk
    exact (vStrLenBetween_bound hchk.2.2.2.1 s (obsErrorMessage_getField hmsg)).2
  · intro table enumCols v s hchk hmsg
    simp only [checkDbFailure, List.append_eq_nil, and_assoc] at hchk
    exact (vStrLenBetween_bound hchk.2.2.2.1 s (obsErrorMessage_getField hmsg)).2

/-- Witness for the amended C8 at a concrete schema-valid calculator
failure observation. -/
theorem c8_schema_bound_witness :
    (checkCalculatorFailure c8WitnessObs = [] ∧
     obsErrorMessage c8WitnessObs = some "Division by zero") ∧
    ("Division by zero").length ≤ 100 :=
  ⟨⟨rfl, rfl⟩,
   c8_schema_validated_error_message_bounds.1 c8WitnessObs "Division by zero" rfl rfl⟩

/-- Counterexample to C9 as stated: the 30-character filter value
matches zero candidate rows, yet the observation's `error_type` is
`runtime_error`, not `not_found` — the 61-character not-found message
fails the failure schema's 50-character bound and the catch rebuilds the
observation as a runtime error. -/
theorem c9_not_found_counterexample :
    (mockCandidates.filter (candMatches c9LongInput.whereClause)).length = 0 ∧
    obsErrorTypeOfResult (dbQueryCandidatesTool c9LongInput) = some "runtime_error" ∧
    ¬ (obsErrorTypeOfResult (dbQueryCandidatesTool c9LongInput) = some "not_found") :=
  ⟨rfl, rfl, by decide⟩

/-- C9 (amended): for every validated db query whose where-filter
matches zero rows of the mock table, the lookup tool returns the
`success:false` observation with `error_type:"not_found"` — provided the
generated message `No … found with <field> = <value>` fits the failure
schema's 50-character bound; longer filter values give `runtime_error`
instead. -/
theorem c9_zero_match_not_found_when_message_fits :
    (∀ (input : CandidatesQueryInput), input.columns ≠ [] →
      mockCandidates.filter (candMatches input.whereClause) = [] →
      (notFoundMsgCand input).length ≤ 50 →
      dbQueryCandidatesTool input = Except.ok (notFoundObsCand input) ∧
      obsErrorType (notFoundObsCand input) = some "not_found" ∧
      obsSuccess (notFoundObsCand input) = some false) ∧
    (∀ (input : OpportunitiesQueryInput), input.columns ≠ [] →
      mockOpportunities.filter (oppMatches input.whereClause) = [] →
      (notFoundMsgOpp input).length ≤ 50 →
      dbQueryOpportunitiesTool input = Except.ok (notFoundObsOpp input) ∧
      obsErrorType (notFoundObsOpp input) = some "not_found" ∧
      obsSuccess (notFoundObsOpp input) = some false) := by
  constructor
  · intro input h1 h2 h3
    exact ⟨dbCand_notFound input h1 h2 h3, rfl, rfl⟩
  · intro input h1 h2 h3
    exact ⟨dbOpp_notFound input h1 h2 h3, rfl, rfl⟩

/-- Witness for the amended C9 at a short unmatched filter value. -/
theorem c9_not_found_witness :
    (c9ShortInput.columns ≠ [] ∧
     mockCandidates.filter (candMatches c9ShortInput.whereClause) = [] ∧
     (notFoundMsgCand c9ShortInput).length ≤ 50) ∧
    dbQueryCandidatesTool c9ShortInput = Except.ok (notFoundObsCand c9ShortInput) ∧
    obsErrorType (notFoundObsCand c9ShortInput) = some "not_found" :=
  ⟨⟨by decide, rfl, by decide⟩,
   (c9_zero_match_not_found_when_message_fits.1 c9ShortInput (by decide) rfl (by decide)).1,
   rfl⟩

/-- C10: For every valid calculator input with `a = 9999`, regardless of
`b` and the operation, the executor throws `boom` before any arithmetic
(modelled as `Except.error "boom"`), and the Gate converts it into the
failure observation `{success:false, error_type:"runtime_error",
error_message:"boom"}` with a failed trace entry. -/
theorem c10_calculator_9999_boom
    (w : WebOracle) (b : Rat) (op : CalcOp) (id : String) (now step : Nat) :
    calculatorTool ⟨9999, b, op⟩ = Except.error "boom" ∧
    processCall (realExecutors w) now step ⟨id, "calculator", calcArgs9999 b op⟩ =
      Except.ok (⟨id, runtimeErrorObs "boom"⟩,
       TraceEntry.tool ⟨step, "calculator", id,
         JsValue.obj (encodeCalcInput ⟨9999, b, op⟩), true, none,
         runtimeErrorObs "boom", false, now, 0⟩) := by
  constructor
  · rfl
  · cases op <;> rfl

end AgentModel
